import Mathlib

/-!
Shallow embedding of the DK61 keyboard programmer (`dk61-programmer.py`):
the CRC-16 checksum engine, the fixed 64-byte packet codec over the struct
layout `<BBHBBH56s`, a trace model of the HID transport, the chunked
command layer (key values, static lighting, layer reset) and the layer
programming orchestrator, together with theorems about the protocol-level
properties of those functions.

Machine integers are modelled as `Nat` (Python ints are unbounded and
non-negative at every call site that matters; the byte-extraction
operations in the source mask explicitly).  Values that the source can
make negative (the `-1` sentinel written through `write32Bits`) are
modelled as `Int`, with Python's floor shift `>>` as `Int.fdiv` and
Python's `&  0xff` on possibly-negative values as `Int.emod` by 256.
`struct.pack` raising on out-of-range fields is modelled by `Option`;
the `56s` field pads with zeros and silently truncates, as in Python.
-/

/-- One shift step of the CRC-16 inner loop: shift left by one and, if
bit 16 became set, xor with the polynomial and truncate to 16 bits. -/
def crc16round (poly crc : Nat) : Nat :=
  let c := crc <<< 1
  if c &&& 0x10000 ≠ 0 then (c ^^^ poly) &&& 0xffff else c

/-- The eight iterations of the inner loop (`for _ in range(0, 8)`). -/
def crc16rounds (poly : Nat) : Nat → Nat → Nat
  | 0, crc => crc
  | n + 1, crc => crc16rounds poly n (crc16round poly crc)

/-- `crc16(data, poly, iv, xorf)`: xor each byte into the high byte of the
16-bit accumulator, run eight shift rounds, finally mask to 16 bits and
xor with `xorf`. -/
def crc16 (data : List Nat) (poly iv xorf : Nat) : Nat :=
  ((data.foldl (fun crc b => crc16rounds poly 8 (crc ^^^ (b <<< 8))) iv) &&& 0xffff) ^^^ xorf

/-- `crc16_usb`: the standard USB parameterization (defined in the source
but unused by the active protocol). -/
def crc16_usb (data : List Nat) (iv : Nat) : Nat :=
  crc16 data 0x8005 iv 0xffff

/-- `mycrc16`: the protocol's own CRC variant, polynomial 0x1021, initial
value 0xffff, no output xor. -/
def mycrc16 (data : List Nat) : Nat :=
  crc16 data 0x1021 0xffff 0x0000

theorem mycrc16_lt (data : List Nat) : mycrc16 data < 65536 := by
  have h : mycrc16 data = (data.foldl (fun crc b => crc16rounds 0x1021 8 (crc ^^^ (b <<< 8))) 0xffff) &&& 0xffff := by
    simp [mycrc16, crc16]
  rw [h]
  exact Nat.lt_succ_of_le (Nat.and_le_right)

/-- Outbound frame record, with the field names of `CommandPacketTuple`
(`cmd subcmd offset pad1 length checksum data`) over `<BBHBBH56s`. -/
structure CommandPacket where
  cmd : Nat
  subcmd : Nat
  offset : Nat
  pad1 : Nat
  length : Nat
  checksum : Nat
  data : List Nat
deriving DecidableEq

/-- Inbound frame record, with the field names of `ReplyPacketTuple`
(`cmd subcmd result pad1 pad2 checksum data`) over the same struct. -/
structure ReplyPacket where
  cmd : Nat
  subcmd : Nat
  result : Nat
  pad1 : Nat
  pad2 : Nat
  checksum : Nat
  data : List Nat
deriving DecidableEq

/-- Little-endian serialization of a 16-bit struct field (`<H`). -/
def le16 (v : Nat) : List Nat := [v % 256, v / 256]

/-- The `56s` struct field: zero-pad to 56 bytes, silently truncating
anything longer, exactly as Python's `struct` does. -/
def pad56 (d : List Nat) : List Nat := d.take 56 ++ List.replicate (56 - d.length) 0

theorem pad56_length (d : List Nat) : (pad56 d).length = 56 := by
  simp [pad56]
  omega

theorem pad56_of_length_eq (d : List Nat) (h : d.length = 56) : pad56 d = d := by
  simp [pad56, h, List.take_of_length_le]

/-- The 64 bytes produced by packing an outbound frame (`<BBHBBH56s`,
assuming every field is within range for its format). -/
def CommandPacket.packBytes (p : CommandPacket) : List Nat :=
  p.cmd :: p.subcmd :: p.offset % 256 :: p.offset / 256 ::
    p.pad1 :: p.length :: p.checksum % 256 :: p.checksum / 256 :: pad56 p.data

theorem CommandPacket.packBytes_length (p : CommandPacket) : p.packBytes.length = 64 := by
  simp [CommandPacket.packBytes, pad56_length]

/-- `_pack` for outbound frames: `struct.pack` raises `struct.error` when
a `B` field is not a byte or an `H` field does not fit 16 bits; this is
the `none` case. -/
def CommandPacket.pack (p : CommandPacket) : Option (List Nat) :=
  if p.cmd < 256 ∧ p.subcmd < 256 ∧ p.offset < 65536 ∧ p.pad1 < 256 ∧ p.length < 256 ∧ p.checksum < 65536
  then some p.packBytes else none

/-- The 64 bytes produced by packing an inbound frame. -/
def ReplyPacket.packBytes (p : ReplyPacket) : List Nat :=
  p.cmd :: p.subcmd :: p.result % 256 :: p.result / 256 ::
    p.pad1 :: p.pad2 :: p.checksum % 256 :: p.checksum / 256 :: pad56 p.data

/-- `_pack` for inbound frames. -/
def ReplyPacket.pack (p : ReplyPacket) : Option (List Nat) :=
  if p.cmd < 256 ∧ p.subcmd < 256 ∧ p.result < 65536 ∧ p.pad1 < 256 ∧ p.pad2 < 256 ∧ p.checksum < 65536
  then some p.packBytes else none

/-- Field extraction used by `_unpack` on a 64-byte inbound buffer. -/
def replyOf (buf : List Nat) : ReplyPacket :=
  ⟨buf.getD 0 0, buf.getD 1 0, buf.getD 2 0 + 256 * buf.getD 3 0,
   buf.getD 4 0, buf.getD 5 0, buf.getD 6 0 + 256 * buf.getD 7 0,
   (buf.drop 8).take 56⟩

/-- `ReplyPacket._unpack`: `struct.unpack` requires a buffer of exactly
64 bytes and splits it into the tuple fields. -/
def ReplyPacket.unpack (buf : List Nat) : Option ReplyPacket :=
  if buf.length = 64 then some (replyOf buf) else none

/-- `CommandPacket._unpack` (inherited from the same mixin). -/
def CommandPacket.unpack (buf : List Nat) : Option CommandPacket :=
  if buf.length = 64 then
    some ⟨buf.getD 0 0, buf.getD 1 0, buf.getD 2 0 + 256 * buf.getD 3 0,
          buf.getD 4 0, buf.getD 5 0, buf.getD 6 0 + 256 * buf.getD 7 0,
          (buf.drop 8).take 56⟩
  else none

/-- `_calculate_checksum`: CRC over the frame with checksum field zeroed. -/
def CommandPacket.calculateChecksum (p : CommandPacket) : Option Nat :=
  (CommandPacket.pack {p with checksum := 0}).map mycrc16

/-- `_replace_checksum`: the frame with its checksum recomputed. -/
def CommandPacket.replaceChecksum (p : CommandPacket) : Option CommandPacket :=
  p.calculateChecksum.map (fun c => {p with checksum := c})

/-- `_checksum_ok`: recompute and compare. -/
def CommandPacket.checksumOk (p : CommandPacket) : Option Bool :=
  p.calculateChecksum.map (fun c => p.checksum == c)

def ReplyPacket.calculateChecksum (p : ReplyPacket) : Option Nat :=
  (ReplyPacket.pack {p with checksum := 0}).map mycrc16

def ReplyPacket.replaceChecksum (p : ReplyPacket) : Option ReplyPacket :=
  p.calculateChecksum.map (fun c => {p with checksum := c})

def ReplyPacket.checksumOk (p : ReplyPacket) : Option Bool :=
  p.calculateChecksum.map (fun c => p.checksum == c)

/-- C1: for every frame value (Command or Reply) whose non-checksum fields
are within struct range, the checksum computed by the frame builder is the
CRC-16 with polynomial 0x1021, initial value 0xffff and no output xor over
the 64-byte serialization of the frame with its checksum field set to 0,
and the frame returned by `_replace_checksum` satisfies `_checksum_ok`. -/
theorem checksum_builder_spec (p : CommandPacket) (r : ReplyPacket)
    (hp : p.cmd < 256 ∧ p.subcmd < 256 ∧ p.offset < 65536 ∧ p.pad1 < 256 ∧ p.length < 256)
    (hr : r.cmd < 256 ∧ r.subcmd < 256 ∧ r.result < 65536 ∧ r.pad1 < 256 ∧ r.pad2 < 256) :
    (p.calculateChecksum =
        some (crc16 (CommandPacket.packBytes {p with checksum := 0}) 0x1021 0xffff 0x0000) ∧
      ∃ q, p.replaceChecksum = some q ∧ q.checksumOk = some true) ∧
    (r.calculateChecksum =
        some (crc16 (ReplyPacket.packBytes {r with checksum := 0}) 0x1021 0xffff 0x0000) ∧
      ∃ q, r.replaceChecksum = some q ∧ q.checksumOk = some true) := by
  obtain ⟨h1, h2, h3, h4, h5⟩ := hp
  obtain ⟨g1, g2, g3, g4, g5⟩ := hr
  have hpackP : CommandPacket.pack {p with checksum := 0} =
      some (CommandPacket.packBytes {p with checksum := 0}) := by
    simp [CommandPacket.pack, h1, h2, h3, h4, h5]
  have hpackR : ReplyPacket.pack {r with checksum := 0} =
      some (ReplyPacket.packBytes {r with checksum := 0}) := by
    simp [ReplyPacket.pack, g1, g2, g3, g4, g5]
  refine ⟨⟨?_, ?_⟩, ⟨?_, ?_⟩⟩
  · simp [CommandPacket.calculateChecksum, hpackP, mycrc16]
  · refine ⟨{p with checksum := mycrc16 (CommandPacket.packBytes {p with checksum := 0})}, ?_, ?_⟩
    · simp [CommandPacket.replaceChecksum, CommandPacket.calculateChecksum, hpackP]
    · simp [CommandPacket.checksumOk, CommandPacket.calculateChecksum, hpackP]
  · simp [ReplyPacket.calculateChecksum, hpackR, mycrc16]
  · refine ⟨{r with checksum := mycrc16 (ReplyPacket.packBytes {r with checksum := 0})}, ?_, ?_⟩
    · simp [ReplyPacket.replaceChecksum, ReplyPacket.calculateChecksum, hpackR]
    · simp [ReplyPacket.checksumOk, ReplyPacket.calculateChecksum, hpackR]

/-- Witness for `checksum_builder_spec` at a concrete command frame and a
concrete reply frame. -/
theorem checksum_builder_spec_witness :
    ((⟨0x22, 2, 0, 56, 0, 0x9999, List.replicate 56 1⟩ : CommandPacket).calculateChecksum =
        some (crc16 (CommandPacket.packBytes
          {(⟨0x22, 2, 0, 56, 0, 0x9999, List.replicate 56 1⟩ : CommandPacket) with checksum := 0})
          0x1021 0xffff 0x0000) ∧
      ∃ q, (⟨0x22, 2, 0, 56, 0, 0x9999, List.replicate 56 1⟩ : CommandPacket).replaceChecksum = some q ∧
        q.checksumOk = some true) ∧
    ((⟨0x22, 2, 1, 0, 0, 0x1234, List.replicate 56 0⟩ : ReplyPacket).calculateChecksum =
        some (crc16 (ReplyPacket.packBytes
          {(⟨0x22, 2, 1, 0, 0, 0x1234, List.replicate 56 0⟩ : ReplyPacket) with checksum := 0})
          0x1021 0xffff 0x0000) ∧
      ∃ q, (⟨0x22, 2, 1, 0, 0, 0x1234, List.replicate 56 0⟩ : ReplyPacket).replaceChecksum = some q ∧
        q.checksumOk = some true) :=
  checksum_builder_spec _ _ (by decide) (by decide)

/-- The exception taxonomy of the module.  `cmdError` mirrors the
`CmdError` subclass (message plus raw reply packet) that the source file
defines; `plainError` is the base `Error` class raised with just a
message.  `valueError` is the `ValueError` of the offset range check,
`structError` is `struct.error`, `lookupError` is `LookupError` and
`keyError` is a dict `KeyError`; `attributeError` marks the unreachable
access of `.cmd` on a `None` reply. -/
inductive PyErr where
  | valueError
  | structError
  | plainError (msg : String)
  | cmdError (msg : String) (reply : ReplyPacket)
  | lookupError (msg : String)
  | keyError (key : String)
  | attributeError
deriving DecidableEq

deriving instance DecidableEq for Except

/-- `true` exactly on the `CmdError` subclass. -/
def PyErr.isCmdError : PyErr → Bool
  | .cmdError _ _ => true
  | _ => false

/-- The observable state of the HID channel: the frames written so far
(each recorded with the reply timeout of the call that wrote it) and the
stream of 64-byte reply buffers the device will deliver. -/
structure HidState where
  written : List (List Nat × Nat)
  replies : List (List Nat)
deriving DecidableEq

/-- `DK61.sendCommand`: range-check the offset, build the frame (small or
full offset mode), stamp the checksum, write the 64 bytes, and optionally
read and decode one reply.  A missing or short reply makes the reply
unpack fail (`struct.error`), mirroring `hid.read` returning short data
on timeout. -/
def sendCommand (cmd subcmd offset length : Nat) (data : List Nat) (getreply : Bool)
    (replytimeout : Nat) (smallOffset : Bool) (st : HidState) :
    Except PyErr (Option ReplyPacket) × HidState :=
  if offset &&& 0xff000000 ≠ 0 then (.error .valueError, st)
  else
    let d := if data = [] then List.replicate 0x38 0 else data
    let pkt0 : CommandPacket :=
      if smallOffset then ⟨cmd, subcmd, offset &&& 0xffff, length, 0, 0, d⟩
      else ⟨cmd, subcmd, offset &&& 0xffff, offset >>> 16, length, 0, d⟩
    match pkt0.replaceChecksum with
    | none => (.error .structError, st)
    | some pkt =>
      match pkt.pack with
      | none => (.error .structError, st)
      | some bytes =>
        let st1 : HidState := ⟨st.written ++ [(bytes, replytimeout)], st.replies⟩
        if getreply then
          match st1.replies with
          | [] => (.error .structError, st1)
          | r :: rest =>
            match ReplyPacket.unpack r with
            | none => (.error .structError, ⟨st1.written, rest⟩)
            | some rp => (.ok (some rp), ⟨st1.written, rest⟩)
        else (.ok none, st1)

/-- The frame `sendCommand` builds in small-offset mode: the 16-bit
masked offset sits in the offset field, the length argument lands in the
pad byte, and the declared-length byte is 0. -/
def smallOffsetPacket (cmd subcmd offset length : Nat) (data : List Nat) : CommandPacket :=
  let p0 : CommandPacket := ⟨cmd, subcmd, offset &&& 0xffff, length, 0, 0, data⟩
  {p0 with checksum := mycrc16 p0.packBytes}

/-- The frame `sendCommand` builds in full-offset mode: bits 16.. of the
offset land in the pad byte and the length argument in the declared-length
byte. -/
def fullOffsetPacket (cmd subcmd offset length : Nat) (data : List Nat) : CommandPacket :=
  let p0 : CommandPacket := ⟨cmd, subcmd, offset &&& 0xffff, offset >>> 16, length, 0, data⟩
  {p0 with checksum := mycrc16 p0.packBytes}

theorem and_hi_eq_zero_of_lt {n : Nat} (h : n < 2 ^ 24) : n &&& 0xff000000 = 0 := by
  apply Nat.eq_of_testBit_eq
  intro i
  simp only [Nat.testBit_and, Nat.zero_testBit]
  rcases Nat.lt_or_ge i 24 with hi | hi
  · have hm : ∀ j, j < 24 → Nat.testBit 0xff000000 j = false := by decide
    simp [hm i hi]
  · have hx : Nat.testBit n i = false :=
      Nat.testBit_lt_two_pow (Nat.lt_of_lt_of_le h (Nat.pow_le_pow_right (by omega) hi))
    simp [hx]

theorem and_hi_ne_zero {n : Nat} (h1 : 0xffffff < n) (h2 : n < 2 ^ 32) :
    n &&& 0xff000000 ≠ 0 := by
  intro h0
  have hbit : ∀ i, Nat.testBit n i = true → Nat.testBit 0xff000000 i = false := by
    intro i hni
    have h := congrArg (fun m => Nat.testBit m i) h0
    simp only [Nat.testBit_and, Nat.zero_testBit, Bool.and_eq_false_iff] at h
    rcases h with h | h
    · rw [hni] at h
      exact absurd h (by simp)
    · exact h
  have hlt : n < 2 ^ 24 := by
    apply Nat.lt_pow_two_of_testBit
    intro i hi
    rcases Nat.lt_or_ge i 32 with hlo | hhi
    · have hm : ∀ j, 24 ≤ j → j < 32 → Nat.testBit 0xff000000 j = true := by decide
      cases hb : Nat.testBit n i with
      | false => rfl
      | true => exact absurd (hm i hi hlo) (by simp [hbit i hb])
    · exact Nat.testBit_lt_two_pow (Nat.lt_of_lt_of_le h2 (Nat.pow_le_pow_right (by omega) hhi))
  omega

theorem and_ffff_eq_mod (n : Nat) : n &&& 0xffff = n % 65536 := by
  have := Nat.and_pow_two_sub_one_eq_mod n 16
  norm_num at this
  exact this

/-- The generic success shape of `sendCommand`: under in-range arguments
the offset check passes, both packs succeed, and the call writes exactly
the small- or full-offset frame, tagged with the reply timeout. -/
theorem sendCommand_eq (cmd subcmd offset length : Nat) (data : List Nat) (getreply : Bool)
    (t : Nat) (so : Bool) (st : HidState)
    (h1 : cmd < 256) (h2 : subcmd < 256) (h3 : length < 256)
    (h4 : offset &&& 0xff000000 = 0) (h5 : so = false → offset >>> 16 < 256) :
    sendCommand cmd subcmd offset length data getreply t so st =
      (let d := if data = [] then List.replicate 0x38 0 else data
       let pkt : CommandPacket :=
         if so then smallOffsetPacket cmd subcmd offset length d
         else fullOffsetPacket cmd subcmd offset length d
       let st1 : HidState := ⟨st.written ++ [(pkt.packBytes, t)], st.replies⟩
       if getreply then
         match st1.replies with
         | [] => (.error .structError, st1)
         | r :: rest =>
           match ReplyPacket.unpack r with
           | none => (.error .structError, ⟨st1.written, rest⟩)
           | some rp => (.ok (some rp), ⟨st1.written, rest⟩)
       else (.ok none, st1)) := by
  have hoff : offset &&& 0xffff < 65536 := by
    have := and_ffff_eq_mod offset
    omega
  cases so with
  | true =>
    have hrep : ∀ d : List Nat, (CommandPacket.mk cmd subcmd (offset &&& 0xffff) length 0 0
        d).replaceChecksum = some (smallOffsetPacket cmd subcmd offset length d) := by
      intro d
      simp [CommandPacket.replaceChecksum, CommandPacket.calculateChecksum,
        CommandPacket.pack, h1, h2, h3, hoff, smallOffsetPacket]
    have hpk : ∀ d : List Nat, (smallOffsetPacket cmd subcmd offset length d).pack =
        some (smallOffsetPacket cmd subcmd offset length d).packBytes := by
      intro d
      simp [CommandPacket.pack, smallOffsetPacket, h1, h2, h3, hoff, mycrc16_lt]
    simp only [sendCommand, h4, ne_eq, not_true_eq_false, not_false_eq_true,
      if_neg, if_pos, ite_true, ite_false]
    simp [hrep, hpk]
  | false =>
    have h6 : offset >>> 16 < 256 := h5 rfl
    have hrep : ∀ d : List Nat, (CommandPacket.mk cmd subcmd (offset &&& 0xffff)
        (offset >>> 16) length 0 d).replaceChecksum =
        some (fullOffsetPacket cmd subcmd offset length d) := by
      intro d
      simp [CommandPacket.replaceChecksum, CommandPacket.calculateChecksum,
        CommandPacket.pack, h1, h2, h3, hoff, h6, fullOffsetPacket]
    have hpk : ∀ d : List Nat, (fullOffsetPacket cmd subcmd offset length d).pack =
        some (fullOffsetPacket cmd subcmd offset length d).packBytes := by
      intro d
      simp [CommandPacket.pack, fullOffsetPacket, h1, h2, h3, hoff, h6, mycrc16_lt]
    simp only [sendCommand, h4, ne_eq, not_true_eq_false, not_false_eq_true,
      if_neg, if_pos, ite_true, ite_false]
    simp [hrep, hpk]

/-- Byte positions of the packed outbound frame. -/
theorem CommandPacket.packBytes_getD (p : CommandPacket) :
    p.packBytes.getD 0 0 = p.cmd ∧ p.packBytes.getD 1 0 = p.subcmd ∧
    p.packBytes.getD 2 0 = p.offset % 256 ∧ p.packBytes.getD 3 0 = p.offset / 256 ∧
    p.packBytes.getD 4 0 = p.pad1 ∧ p.packBytes.getD 5 0 = p.length ∧
    p.packBytes.drop 8 = pad56 p.data := by
  simp [CommandPacket.packBytes]

/-- The generic written-frame shape of a successful `sendCommand`: exactly
one frame is appended to the trace, the small- or full-offset packet for
the given arguments, tagged with the reply timeout. -/
theorem sendCommand_written (cmd subcmd offset length : Nat) (data : List Nat) (getreply : Bool)
    (t : Nat) (so : Bool) (st : HidState)
    (h1 : cmd < 256) (h2 : subcmd < 256) (h3 : length < 256)
    (h4 : offset &&& 0xff000000 = 0) (h5 : so = false → offset >>> 16 < 256) :
    ∃ rest, (sendCommand cmd subcmd offset length data getreply t so st).2 =
      ⟨st.written ++
        [((let d := if data = [] then List.replicate 0x38 0 else data
           if so then smallOffsetPacket cmd subcmd offset length d
           else fullOffsetPacket cmd subcmd offset length d).packBytes, t)], rest⟩ ∧
      (getreply = false → (sendCommand cmd subcmd offset length data getreply t so st).1 = .ok none) := by
  rw [sendCommand_eq cmd subcmd offset length data getreply t so st h1 h2 h3 h4 h5]
  cases getreply with
  | false => exact ⟨st.replies, rfl, fun _ => rfl⟩
  | true =>
    cases hrep : st.replies with
    | nil => exact ⟨st.replies, by simp [hrep], by simp⟩
    | cons r rest =>
      cases hu : ReplyPacket.unpack r with
      | none => exact ⟨rest, by simp [hrep, hu], by simp⟩
      | some rp => exact ⟨rest, by simp [hrep, hu], by simp⟩

/-- C10: byte layout of the frame written by `sendCommand`.  With
`smallOffset` true, bytes 2-3 hold the offset reduced mod 2^16 in
little-endian order, byte 4 (the pad field) holds the length argument and
byte 5 (the declared-length field) is 0; with `smallOffset` false byte 4
holds bits 16.. of the offset (bits 16-23, given the range check) and
byte 5 holds the length argument. -/
theorem sendCommand_field_layout (cmd subcmd offset length : Nat) (data : List Nat)
    (getreply : Bool) (t : Nat) (so : Bool) (st : HidState)
    (h1 : cmd < 256) (h2 : subcmd < 256) (h3 : length < 256)
    (h4 : offset &&& 0xff000000 = 0) (h5 : so = false → offset < 2 ^ 24) :
    ∃ B rest, (sendCommand cmd subcmd offset length data getreply t so st).2 =
        ⟨st.written ++ [(B, t)], rest⟩ ∧
      B.getD 2 0 = offset % 65536 % 256 ∧ B.getD 3 0 = offset % 65536 / 256 ∧
      (so = true → B.getD 4 0 = length ∧ B.getD 5 0 = 0) ∧
      (so = false → B.getD 4 0 = offset >>> 16 ∧ B.getD 5 0 = length) := by
  have h5' : so = false → offset >>> 16 < 256 := by
    intro hso
    have := h5 hso
    rw [Nat.shiftRight_eq_div_pow]
    omega
  obtain ⟨rest, hst, -⟩ :=
    sendCommand_written cmd subcmd offset length data getreply t so st h1 h2 h3 h4 h5'
  refine ⟨_, rest, hst, ?_⟩
  cases so with
  | true =>
    simp [smallOffsetPacket, CommandPacket.packBytes, and_ffff_eq_mod]
  | false =>
    simp [fullOffsetPacket, CommandPacket.packBytes, and_ffff_eq_mod]

/-- Witness for `sendCommand_field_layout` at a concrete small-offset call. -/
theorem sendCommand_field_layout_witness :
    ((0x12345 : Nat) &&& 0xff000000 = 0) ∧
    ∃ B rest, (sendCommand 1 2 0x12345 7 [] false 100 true ⟨[], []⟩).2 =
        ⟨([] : List (List Nat × Nat)) ++ [(B, 100)], rest⟩ ∧
      B.getD 2 0 = 0x12345 % 65536 % 256 ∧ B.getD 3 0 = 0x12345 % 65536 / 256 ∧
      (true = true → B.getD 4 0 = 7 ∧ B.getD 5 0 = 0) ∧
      (true = false → B.getD 4 0 = 0x12345 >>> 16 ∧ B.getD 5 0 = 7) :=
  ⟨by decide,
   sendCommand_field_layout 1 2 0x12345 7 [] false 100 true ⟨[], []⟩
     (by decide) (by decide) (by decide) (by decide) (by decide)⟩

/-- C5 (amended): for every offset below 2^32 that exceeds 0x00ffffff —
equivalently, any offset with a bit in positions 24..31 set —
`sendCommand` raises `ValueError` before performing any I/O (the channel
state is returned untouched). -/
theorem offset_range_check (cmd subcmd offset length : Nat) (data : List Nat)
    (getreply : Bool) (t : Nat) (so : Bool) (st : HidState)
    (h1 : 0xffffff < offset) (h2 : offset < 2 ^ 32) :
    sendCommand cmd subcmd offset length data getreply t so st = (.error .valueError, st) := by
  have h := and_hi_ne_zero h1 h2
  simp [sendCommand, h]

/-- Witness for `offset_range_check` at offset 0x1000000. -/
theorem offset_range_check_witness :
    (0xffffff : Nat) < 0x1000000 ∧
    sendCommand 1 2 0x1000000 0 [] true 100 true ⟨[], []⟩ = (.error .valueError, ⟨[], []⟩) :=
  ⟨by decide, offset_range_check 1 2 0x1000000 0 [] true 100 true ⟨[], []⟩ (by decide) (by decide)⟩

/-- C5 counterexample: the offset 2^32 exceeds 0x00ffffff, yet the guard
`offset & 0xff000000` does not see it — the call succeeds and a frame is
written to the channel, so no `ValueError` is raised before I/O. -/
theorem offset_range_check_cex :
    (0xffffff : Nat) < 2 ^ 32 ∧
    (sendCommand 1 2 (2 ^ 32) 0 [] false 100 true ⟨[], []⟩).1 = .ok none ∧
    (sendCommand 1 2 (2 ^ 32) 0 [] false 100 true ⟨[], []⟩).2.written.length = 1 := by
  have h := sendCommand_eq 1 2 (2 ^ 32) 0 [] false 100 true ⟨[], []⟩
    (by norm_num) (by norm_num) (by norm_num) (by decide) (by simp)
  refine ⟨by norm_num, ?_, ?_⟩
  · rw [h]
    simp
  · rw [h]
    simp

/-- C4 (amended): a payload longer than 56 bytes is not rejected:
`sendCommand` serializes and writes the frame anyway, with the payload
silently truncated by the `56s` struct field to its first 56 bytes. -/
theorem payload_truncation (cmd subcmd offset length : Nat) (data : List Nat)
    (getreply : Bool) (t : Nat) (st : HidState)
    (h1 : cmd < 256) (h2 : subcmd < 256) (h3 : length < 256)
    (h4 : offset &&& 0xff000000 = 0) (h5 : 56 < data.length) :
    ∃ B rest, (sendCommand cmd subcmd offset length data getreply t true st).2 =
        ⟨st.written ++ [(B, t)], rest⟩ ∧ B.length = 64 ∧ B.drop 8 = data.take 56 ∧
      (getreply = false → (sendCommand cmd subcmd offset length data getreply t true st).1 = .ok none) := by
  have hne : data ≠ [] := by
    intro h
    rw [h] at h5
    simp at h5
  obtain ⟨rest, hst, hok⟩ :=
    sendCommand_written cmd subcmd offset length data getreply t true st h1 h2 h3 h4 (by simp)
  refine ⟨(smallOffsetPacket cmd subcmd offset length data).packBytes, rest, ?_, ?_, ?_, hok⟩
  · simpa [hne] using hst
  · exact CommandPacket.packBytes_length _
  · have hp : pad56 data = data.take 56 := by
      simp [pad56, Nat.sub_eq_zero_of_le (Nat.le_of_lt h5)]
    simp [smallOffsetPacket, CommandPacket.packBytes, hp]

/-- Witness for `payload_truncation` on a 57-byte payload. -/
theorem payload_truncation_witness :
    (56 : Nat) < (List.replicate 57 7 : List Nat).length ∧
    ∃ B rest, (sendCommand 1 2 0 57 (List.replicate 57 7) false 100 true ⟨[], []⟩).2 =
        ⟨([] : List (List Nat × Nat)) ++ [(B, 100)], rest⟩ ∧ B.length = 64 ∧
      B.drop 8 = (List.replicate 57 7 : List Nat).take 56 ∧
      (false = false → (sendCommand 1 2 0 57 (List.replicate 57 7) false 100 true ⟨[], []⟩).1 = .ok none) :=
  ⟨by decide,
   payload_truncation 1 2 0 57 (List.replicate 57 7) false 100 ⟨[], []⟩
     (by decide) (by decide) (by decide) (by decide) (by decide)⟩

/-- C4 counterexample: a call with a 57-byte payload is not rejected —
it returns success and one 64-byte frame is written to the channel. -/
theorem payload_oversize_cex :
    ((List.replicate 57 7 : List Nat).length = 57) ∧
    (sendCommand 1 2 0 57 (List.replicate 57 7) false 100 true ⟨[], []⟩).1 = .ok none ∧
    (sendCommand 1 2 0 57 (List.replicate 57 7) false 100 true ⟨[], []⟩).2.written.length = 1 ∧
    ((sendCommand 1 2 0 57 (List.replicate 57 7) false 100 true ⟨[], []⟩).2.written.getD 0 ([], 0)).1.length = 64 := by
  have h := sendCommand_eq 1 2 0 57 (List.replicate 57 7) false 100 true ⟨[], []⟩
    (by norm_num) (by norm_num) (by norm_num) (by decide) (by simp)
  have hne : (List.replicate 57 7 : List Nat) ≠ [] := by simp
  refine ⟨by simp, ?_, ?_, ?_⟩
  · rw [h]
    simp
  · rw [h]
    simp
  · rw [h]
    simp [hne, CommandPacket.packBytes_length]

/-- C6 (amended): for a Command Frame whose fields are in struct range and
whose payload is exactly 56 bytes, deserializing the 64-byte serialization
yields the original frame.  (For payloads shorter than 56 bytes the
round trip returns the frame with its payload zero-padded to 56 bytes,
so it is not the identity — see the counterexample.) -/
theorem roundtrip (p : CommandPacket)
    (h1 : p.cmd < 256) (h2 : p.subcmd < 256) (h3 : p.offset < 65536) (h4 : p.pad1 < 256)
    (h5 : p.length < 256) (h6 : p.checksum < 65536) (h7 : p.data.length = 56) :
    p.pack = some p.packBytes ∧ CommandPacket.unpack p.packBytes = some p := by
  constructor
  · simp [CommandPacket.pack, h1, h2, h3, h4, h5, h6]
  · rw [CommandPacket.unpack, if_pos (CommandPacket.packBytes_length p)]
    simp [CommandPacket.packBytes, Nat.mod_add_div, pad56_of_length_eq p.data h7,
      List.take_of_length_le, le_of_eq h7]

/-- Witness for `roundtrip` at a concrete full-payload frame. -/
theorem roundtrip_witness :
    ((List.replicate 56 9 : List Nat).length = 56) ∧
    (CommandPacket.pack ⟨1, 2, 300, 4, 5, 600, List.replicate 56 9⟩ =
      some (CommandPacket.packBytes ⟨1, 2, 300, 4, 5, 600, List.replicate 56 9⟩)) ∧
    CommandPacket.unpack (CommandPacket.packBytes ⟨1, 2, 300, 4, 5, 600, List.replicate 56 9⟩) =
      some ⟨1, 2, 300, 4, 5, 600, List.replicate 56 9⟩ :=
  ⟨by decide,
   roundtrip ⟨1, 2, 300, 4, 5, 600, List.replicate 56 9⟩
     (by decide) (by decide) (by decide) (by decide) (by decide) (by decide) (by decide)⟩

/-- C6 counterexample: a frame with an empty payload (≤ 56 bytes)
serializes fine, but deserializing gives back the frame with its payload
zero-padded to 56 bytes — not the original frame. -/
theorem roundtrip_cex :
    (([] : List Nat).length ≤ 56) ∧
    (CommandPacket.pack ⟨1, 2, 3, 4, 5, 6, []⟩ =
      some (CommandPacket.packBytes ⟨1, 2, 3, 4, 5, 6, []⟩)) ∧
    CommandPacket.unpack (CommandPacket.packBytes ⟨1, 2, 3, 4, 5, 6, []⟩) ≠
      some ⟨1, 2, 3, 4, 5, 6, []⟩ ∧
    CommandPacket.unpack (CommandPacket.packBytes ⟨1, 2, 3, 4, 5, 6, []⟩) =
      some ⟨1, 2, 3, 4, 5, 6, List.replicate 56 0⟩ := by
  decide

/-- Opcode constants from the `OpCodes` enum. -/
def OpCodes.LayerResetDataType : Nat := 0x21

def OpCodes.LayerSetKeyValues : Nat := 0x22

def OpCodes.LayerSetLightValues : Nat := 0x27

def OpCodes.LayerFnSetKeyValues : Nat := 0x31

/-- Data-type codes from the `KeyboardLayerDataType` enum. -/
def KeyboardLayerDataType.KeySet : Nat := 1

def KeyboardLayerDataType.Lighting : Nat := 6

def KeyboardLayerDataType.FnKeySet : Nat := 7

/-- A well-formed 64-byte reply whose command byte echoes the request. -/
def goodReplyBytes (opcode : Nat) : List Nat := opcode :: List.replicate 63 0

/-- `DK61.wipeoutLayer`: one `LayerResetDataType` command with the layer
code as subcommand, the data-type code passed in the offset argument, no
payload, verbose, a 1000 ms reply timeout — and `smallOffset` left at its
default `False`. -/
def wipeoutLayer (layerCode dataType : Nat) (getreply : Bool) (st : HidState) :
    Except PyErr (Option ReplyPacket) × HidState :=
  sendCommand OpCodes.LayerResetDataType layerCode dataType 0 [] getreply 1000 false st

/-- C8 (amended): every Reset Layer Data operation writes exactly one
frame: command byte 0x21, subcommand byte the layer code, the data-type
code in the 16-bit offset field (bytes 2-3), zero pad and declared-length
bytes, an all-zero 56-byte payload, and a 1000 ms reply timeout.  The
call leaves `smallOffset` at `False`, but with a 16-bit data-type code
and zero length the resulting frame is byte-identical to the small-offset
encoding. -/
theorem wipeoutLayer_frame (layerCode dataType : Nat) (getreply : Bool) (st : HidState)
    (h1 : layerCode < 256) (h2 : dataType < 65536) :
    ∃ rest, (wipeoutLayer layerCode dataType getreply st).2 =
        ⟨st.written ++
          [((fullOffsetPacket 0x21 layerCode dataType 0 (List.replicate 0x38 0)).packBytes, 1000)],
          rest⟩ ∧
      (fullOffsetPacket 0x21 layerCode dataType 0 (List.replicate 0x38 0)).packBytes.getD 0 0 = 0x21 ∧
      (fullOffsetPacket 0x21 layerCode dataType 0 (List.replicate 0x38 0)).packBytes.getD 1 0 = layerCode ∧
      (fullOffsetPacket 0x21 layerCode dataType 0 (List.replicate 0x38 0)).packBytes.getD 2 0 + 256 *
        (fullOffsetPacket 0x21 layerCode dataType 0 (List.replicate 0x38 0)).packBytes.getD 3 0 = dataType ∧
      (fullOffsetPacket 0x21 layerCode dataType 0 (List.replicate 0x38 0)).packBytes.getD 4 0 = 0 ∧
      (fullOffsetPacket 0x21 layerCode dataType 0 (List.replicate 0x38 0)).packBytes.getD 5 0 = 0 ∧
      (fullOffsetPacket 0x21 layerCode dataType 0 (List.replicate 0x38 0)).packBytes.drop 8 =
        List.replicate 0x38 0 ∧
      (fullOffsetPacket 0x21 layerCode dataType 0 (List.replicate 0x38 0)).packBytes =
        (smallOffsetPacket 0x21 layerCode dataType 0 (List.replicate 0x38 0)).packBytes := by
  have hsh : dataType >>> 16 = 0 := by
    rw [Nat.shiftRight_eq_div_pow]
    omega
  have hmask : dataType &&& 0xff000000 = 0 :=
    and_hi_eq_zero_of_lt (by omega)
  have hmod : dataType &&& 0xffff = dataType := by
    rw [and_ffff_eq_mod]
    omega
  obtain ⟨rest, hst, -⟩ := sendCommand_written OpCodes.LayerResetDataType layerCode dataType 0 []
    getreply 1000 false st (by norm_num [OpCodes.LayerResetDataType]) h1 (by norm_num) hmask
    (fun _ => by rw [hsh]; norm_num)
  refine ⟨rest, ?_, ?_, ?_, ?_, ?_, ?_, ?_, ?_⟩
  · simpa [wipeoutLayer, OpCodes.LayerResetDataType] using hst
  · simp [fullOffsetPacket, CommandPacket.packBytes]
  · simp [fullOffsetPacket, CommandPacket.packBytes]
  · simp [fullOffsetPacket, CommandPacket.packBytes, hmod, Nat.mod_add_div]
  · simp [fullOffsetPacket, CommandPacket.packBytes, hsh]
  · simp [fullOffsetPacket, CommandPacket.packBytes]
  · simp [fullOffsetPacket, CommandPacket.packBytes, pad56_of_length_eq]
  · simp [fullOffsetPacket, smallOffsetPacket, hsh]

/-- Witness for `wipeoutLayer_frame` at layer 2, data type `KeySet`. -/
theorem wipeoutLayer_frame_witness :
    (2 : Nat) < 256 ∧ (1 : Nat) < 65536 ∧
    ∃ rest, (wipeoutLayer 2 1 true ⟨[], []⟩).2 =
        ⟨([] : List (List Nat × Nat)) ++
          [((fullOffsetPacket 0x21 2 1 0 (List.replicate 0x38 0)).packBytes, 1000)], rest⟩ ∧
      (fullOffsetPacket 0x21 2 1 0 (List.replicate 0x38 0)).packBytes.getD 0 0 = 0x21 ∧
      (fullOffsetPacket 0x21 2 1 0 (List.replicate 0x38 0)).packBytes.getD 1 0 = 2 ∧
      (fullOffsetPacket 0x21 2 1 0 (List.replicate 0x38 0)).packBytes.getD 2 0 + 256 *
        (fullOffsetPacket 0x21 2 1 0 (List.replicate 0x38 0)).packBytes.getD 3 0 = 1 ∧
      (fullOffsetPacket 0x21 2 1 0 (List.replicate 0x38 0)).packBytes.getD 4 0 = 0 ∧
      (fullOffsetPacket 0x21 2 1 0 (List.replicate 0x38 0)).packBytes.getD 5 0 = 0 ∧
      (fullOffsetPacket 0x21 2 1 0 (List.replicate 0x38 0)).packBytes.drop 8 =
        List.replicate 0x38 0 ∧
      (fullOffsetPacket 0x21 2 1 0 (List.replicate 0x38 0)).packBytes =
        (smallOffsetPacket 0x21 2 1 0 (List.replicate 0x38 0)).packBytes :=
  ⟨by decide, by decide, wipeoutLayer_frame 2 1 true ⟨[], []⟩ (by decide) (by decide)⟩

/-- C8 counterexample: in the Reset Layer Data frame for layer 2 and the
`Lighting` data type (code 6), the 56-byte payload is all zeros — the
data-type code does not appear in the payload; it is carried in the
offset field (byte 2) instead. -/
theorem wipeoutLayer_payload_cex :
    (wipeoutLayer 2 6 true ⟨[], [goodReplyBytes 0x21]⟩).2.written.length = 1 ∧
    ((wipeoutLayer 2 6 true ⟨[], [goodReplyBytes 0x21]⟩).2.written.getD 0 ([], 0)).1.drop 8 =
      List.replicate 56 0 ∧
    ¬ (6 ∈ ((wipeoutLayer 2 6 true ⟨[], [goodReplyBytes 0x21]⟩).2.written.getD 0 ([], 0)).1.drop 8) ∧
    ((wipeoutLayer 2 6 true ⟨[], [goodReplyBytes 0x21]⟩).2.written.getD 0 ([], 0)).1.getD 2 0 = 6 := by
  obtain ⟨rest, hst, -⟩ := sendCommand_written OpCodes.LayerResetDataType 2 6 0 []
    true 1000 false ⟨[], [goodReplyBytes 0x21]⟩ (by decide) (by decide) (by decide) (by decide)
    (by decide)
  have hw : (wipeoutLayer 2 6 true ⟨[], [goodReplyBytes 0x21]⟩).2.written =
      [((fullOffsetPacket 0x21 2 6 0 (List.replicate 0x38 0)).packBytes, 1000)] := by
    rw [wipeoutLayer, hst]
    simp [OpCodes.LayerResetDataType]
  refine ⟨?_, ?_, ?_, ?_⟩
  · rw [hw]
    simp
  · rw [hw]
    simp [fullOffsetPacket, CommandPacket.packBytes, pad56_of_length_eq]
  · rw [hw]
    simp [fullOffsetPacket, CommandPacket.packBytes, pad56_of_length_eq]
  · rw [hw]
    simp [fullOffsetPacket, CommandPacket.packBytes]
    decide

/-- Byte `j` of a Python int under `(value >> (8*j)) & 0xff`: floor shift
(`Int.fdiv`) then non-negative remainder (`Int.emod`), so the `-1`
sentinel yields 255 in every byte position. -/
def b32 (v : Int) (j : Nat) : Nat := ((Int.fdiv v (2 ^ (8 * j))).emod 256).toNat

/-- The four little-endian bytes `write32Bits` stores for a value. -/
def bytes32 (v : Int) : List Nat := [b32 v 0, b32 v 1, b32 v 2, b32 v 3]

/-- `DK61.write32Bits`: store a 32-bit value little-endian at `position`
(out-of-range positions are unreachable at the call sites considered). -/
def write32Bits (data : List Nat) (position : Nat) (value : Int) : List Nat :=
  ((((data.set (position + 0) (b32 value 0)).set (position + 1) (b32 value 1)).set
      (position + 2) (b32 value 2)).set (position + 3) (b32 value 3))

/-- `DK61.write16Bits`: store a 16-bit value little-endian at `position`. -/
def write16Bits (data : List Nat) (position : Nat) (value : Int) : List Nat :=
  (data.set (position + 0) (b32 value 0)).set (position + 1) (b32 value 1)

/-- Consecutive single-byte stores starting at `pos`. -/
def setSeq (data : List Nat) (pos : Nat) : List Nat → List Nat
  | [] => data
  | b :: bs => setSeq (data.set pos b) (pos + 1) bs

theorem setSeq_length (bs : List Nat) : ∀ (data : List Nat) (pos : Nat),
    (setSeq data pos bs).length = data.length := by
  induction bs with
  | nil => intro data pos; simp [setSeq]
  | cons b bs ih => intro data pos; simp [setSeq, ih]

theorem setSeq_spec (bs : List Nat) : ∀ (data : List Nat) (pos : Nat),
    pos + bs.length ≤ data.length →
    setSeq data pos bs = data.take pos ++ bs ++ data.drop (pos + bs.length) := by
  induction bs with
  | nil =>
    intro data pos h
    simp [setSeq, List.take_append_drop]
  | cons b bs ih =>
    intro data pos h
    have hpos : pos < data.length := by simp at h; omega
    have h1 : (data.set pos b).length = data.length := by simp
    have h2 : setSeq (data.set pos b) (pos + 1) bs =
        (data.set pos b).take (pos + 1) ++ bs ++ (data.set pos b).drop (pos + 1 + bs.length) := by
      apply ih
      simp at h ⊢
      omega
    have h3 : (data.set pos b).drop (pos + 1 + bs.length) = data.drop (pos + 1 + bs.length) := by
      rw [List.drop_set]
      simp [Nat.lt_of_lt_of_le (Nat.lt_succ_self pos) (Nat.le_add_right _ _)]
    have h4 : (data.set pos b).take (pos + 1) = data.take pos ++ [b] := by
      rw [List.set_eq_take_cons_drop b hpos]
      have hl : (data.take pos).length = pos := List.length_take_of_le (Nat.le_of_lt hpos)
      rw [List.take_append_eq_append_take, hl]
      simp [List.take_of_length_le, hl, Nat.le_of_eq hl.symm]
    rw [setSeq, h2, h3, h4]
    have h5 : pos + 1 + bs.length = pos + (bs.length + 1) := by omega
    simp [h5]

theorem write32Bits_eq_setSeq (data : List Nat) (pos : Nat) (v : Int) :
    write32Bits data pos v = setSeq data pos (bytes32 v) := by
  simp [write32Bits, setSeq, bytes32]

theorem write32Bits_length (data : List Nat) (pos : Nat) (v : Int) :
    (write32Bits data pos v).length = data.length := by
  rw [write32Bits_eq_setSeq, setSeq_length]

theorem write32Bits_spec (data : List Nat) (pos : Nat) (v : Int) (h : pos + 4 ≤ data.length) :
    write32Bits data pos v = data.take pos ++ bytes32 v ++ data.drop (pos + 4) := by
  rw [write32Bits_eq_setSeq, setSeq_spec (bytes32 v) data pos (by simp [bytes32]; omega)]
  simp [bytes32]

theorem write16Bits_eq_setSeq (data : List Nat) (pos : Nat) (v : Int) :
    write16Bits data pos v = setSeq data pos [b32 v 0, b32 v 1] := by
  simp [write16Bits, setSeq]

/-- Little-endian serialization of a list of 32-bit values, four bytes
per value, in order (the layout produced by repeated `write32Bits` at
consecutive positions). -/
def serialize32 : List Int → List Nat
  | [] => []
  | v :: vs => bytes32 v ++ serialize32 vs

theorem serialize32_length (vs : List Int) : (serialize32 vs).length = 4 * vs.length := by
  induction vs with
  | nil => simp [serialize32]
  | cons v vs ih => simp [serialize32, bytes32, ih]; omega

/-- Repeated `write32Bits` at consecutive 4-byte positions (the shape of
both the key-code copy loop and the color-code copy loop). -/
def writeValues32 (data : List Nat) (pos : Nat) : List Int → List Nat
  | [] => data
  | v :: vs => writeValues32 (write32Bits data pos v) (pos + 4) vs

theorem writeValues32_length (vs : List Int) : ∀ (data : List Nat) (pos : Nat),
    (writeValues32 data pos vs).length = data.length := by
  induction vs with
  | nil => intro data pos; simp [writeValues32]
  | cons v vs ih => intro data pos; simp [writeValues32, ih, write32Bits_length]

theorem writeValues32_spec (vs : List Int) : ∀ (data : List Nat) (pos : Nat),
    pos + 4 * vs.length ≤ data.length →
    writeValues32 data pos vs = data.take pos ++ serialize32 vs ++ data.drop (pos + 4 * vs.length) := by
  induction vs with
  | nil =>
    intro data pos h
    simp [writeValues32, serialize32, List.take_append_drop]
  | cons v vs ih =>
    intro data pos h
    have hlen : pos + 4 ≤ data.length := by simp at h; omega
    have h2 : writeValues32 (write32Bits data pos v) (pos + 4) vs =
        (write32Bits data pos v).take (pos + 4) ++ serialize32 vs ++
          (write32Bits data pos v).drop (pos + 4 + 4 * vs.length) := by
      apply ih
      rw [write32Bits_length]
      simp at h
      omega
    have h3 : (write32Bits data pos v).take (pos + 4) = data.take pos ++ bytes32 v := by
      rw [write32Bits_spec data pos v hlen]
      have hl : (data.take pos ++ bytes32 v).length = pos + 4 := by
        simp [bytes32, List.length_take_of_le (by omega : pos ≤ data.length)]
      rw [List.take_append_eq_append_take, hl, Nat.sub_self]
      simp [List.take_of_length_le (le_of_eq hl)]
    have h4 : (write32Bits data pos v).drop (pos + 4 + 4 * vs.length) =
        data.drop (pos + 4 + 4 * vs.length) := by
      rw [write32Bits_spec data pos v hlen]
      have hl : (data.take pos ++ bytes32 v).length = pos + 4 := by
        simp [bytes32, List.length_take_of_le (by omega : pos ≤ data.length)]
      rw [List.drop_append_eq_append_drop, hl]
      have hd : (data.take pos ++ bytes32 v).drop (pos + 4 + 4 * vs.length) = [] := by
        apply List.drop_eq_nil_of_le
        omega
      rw [hd, List.drop_drop]
      simp
    rw [writeValues32, h2, h3, h4]
    have h5 : pos + 4 + 4 * vs.length = pos + 4 * (vs.length + 1) := by omega
    simp [serialize32, h5]

theorem take_append_of_length {α : Type} (l1 l2 : List α) (n : Nat) (h : l1.length = n) :
    (l1 ++ l2).take n = l1 := by
  subst h
  exact List.take_left l1 l2

theorem drop_append_of_length {α : Type} (l1 l2 : List α) (n : Nat) (h : l1.length = n) :
    (l1 ++ l2).drop n = l2 := by
  subst h
  exact List.drop_left l1 l2

/-- The `for i in range(1, 32)` loop marking effect slots unused, with the
remaining iteration count made explicit (31 iterations starting at slot 1);
each iteration stores `-1` in the four words of slot `i`. -/
def fillUnusedEffectsAux : Nat → List Nat → Nat → List Nat
  | 0, data, _ => data
  | n + 1, data, i =>
    fillUnusedEffectsAux n
      (write32Bits (write32Bits (write32Bits (write32Bits data (i * 16 + 0) (-1))
        (i * 16 + 4) (-1)) (i * 16 + 8) (-1)) (i * 16 + 12) (-1)) (i + 1)

def fillUnusedEffects (data : List Nat) : List Nat := fillUnusedEffectsAux 31 data 1

theorem fillUnusedEffectsAux_spec : ∀ (n : Nat) (data : List Nat) (i : Nat),
    i * 16 + 16 * n ≤ data.length →
    fillUnusedEffectsAux n data i =
      data.take (i * 16) ++ List.replicate (16 * n) 255 ++ data.drop (i * 16 + 16 * n) := by
  intro n
  induction n with
  | zero =>
    intro data i h
    simp [fillUnusedEffectsAux, List.take_append_drop]
  | succ n ih =>
    intro data i h
    have hw : write32Bits (write32Bits (write32Bits (write32Bits data (i * 16 + 0) (-1))
        (i * 16 + 4) (-1)) (i * 16 + 8) (-1)) (i * 16 + 12) (-1) =
        writeValues32 data (i * 16) [-1, -1, -1, -1] := by
      simp [writeValues32, Nat.add_assoc]
    have hlen4 : i * 16 + 4 * ([(-1 : Int), -1, -1, -1]).length ≤ data.length := by
      simp
      omega
    have hser : serialize32 [(-1 : Int), -1, -1, -1] = List.replicate 16 255 := by decide
    have hstep : writeValues32 data (i * 16) [-1, -1, -1, -1] =
        (data.take (i * 16) ++ List.replicate 16 255) ++ data.drop (i * 16 + 16) := by
      have h0 := writeValues32_spec [(-1 : Int), -1, -1, -1] data (i * 16) hlen4
      rw [hser] at h0
      norm_num at h0
      rw [h0]
      simp [List.append_assoc]
    rw [fillUnusedEffectsAux, hw, hstep]
    have hitake : i * 16 ≤ data.length := by omega
    have hfront : (data.take (i * 16) ++ List.replicate 16 255).length = (i + 1) * 16 := by
      simp [List.length_take_of_le hitake]
      omega
    have hlen' : ((data.take (i * 16) ++ List.replicate 16 255) ++
        data.drop (i * 16 + 16)).length = data.length := by
      simp [List.length_take_of_le hitake]
      omega
    rw [ih _ (i + 1) (by rw [hlen']; omega)]
    rw [List.take_append_eq_append_take, List.take_of_length_le (le_of_eq hfront),
      hfront, Nat.sub_self, List.take_zero, List.append_nil]
    rw [List.drop_append_eq_append_drop,
      List.drop_eq_nil_of_le (by omega : (data.take (i * 16) ++ List.replicate 16 255).length ≤
        (i + 1) * 16 + 16 * n),
      hfront, List.drop_drop]
    rw [show i * 16 + 16 + ((i + 1) * 16 + 16 * n - (i + 1) * 16) =
      i * 16 + 16 * (n + 1) by omega]
    simp only [List.nil_append, List.append_assoc]
    rw [show (16 : Nat) * (n + 1) = 16 + 16 * n by omega, List.replicate_add]
    simp [List.append_assoc]

/-- The logical buffer `commandLayerSetStaticLighting` builds before
chunking: `maxNumberOfEffects = 32`, `effectHeaderSize = 16`, so the
effect table is 512 bytes; `numKeys = 132` (hardcoded in the source), so
`driverColorCodesSize = 528`, `paramHeaderSize = 4` and
`dataBufferSize = 1044`.  Slot 0 points at the effect data (512) with
effect-parameter word 1; slots 1..31 are filled with `-1`; the local
header at 512 is the 16-bit type 0 (static) and the 16-bit payload byte
count 528; the color words start at 516. -/
def staticLightingBuffer (driverColorCodes : List Int) : List Nat :=
  writeValues32 (write16Bits (write16Bits (fillUnusedEffects (write32Bits (write32Bits
    (write32Bits (write32Bits (List.replicate 1044 0) 0 512) 4 1) 8 0) 12 0)) 512 0)
    514 528) 516 driverColorCodes

theorem drop_append_ge {α : Type} (l1 l2 : List α) (n : Nat) (h : l1.length ≤ n) :
    (l1 ++ l2).drop n = l2.drop (n - l1.length) := by
  rw [List.drop_append_eq_append_drop, List.drop_eq_nil_of_le h, List.nil_append]

theorem staticLightingBuffer_eq (colors : List Int) (h : colors.length = 132) :
    staticLightingBuffer colors =
      serialize32 [512, 1, 0, 0] ++ List.replicate 496 255 ++ [0, 0, 16, 2] ++
        serialize32 colors := by
  have hS : (serialize32 [(512 : Int), 1, 0, 0]).length = 16 := by decide
  have h0 : write32Bits (write32Bits (write32Bits (write32Bits
      (List.replicate 1044 0) 0 512) 4 1) 8 0) 12 0 =
      writeValues32 (List.replicate 1044 0) 0 [512, 1, 0, 0] := by
    simp only [writeValues32, Nat.reduceAdd]
  have h1 : writeValues32 (List.replicate 1044 0) 0 [(512 : Int), 1, 0, 0] =
      serialize32 [(512 : Int), 1, 0, 0] ++ List.replicate 1028 0 := by
    rw [writeValues32_spec _ _ _
      (by simp only [List.length_cons, List.length_nil, List.length_replicate]; omega)]
    rw [List.take_zero, List.nil_append,
      show (0 + 4 * ([(512 : Int), 1, 0, 0]).length) = 16 from by
        simp only [List.length_cons, List.length_nil],
      List.drop_replicate, show (1044 - 16 : Nat) = 1028 from rfl]
  have h2 : fillUnusedEffects (serialize32 [(512 : Int), 1, 0, 0] ++ List.replicate 1028 0) =
      serialize32 [(512 : Int), 1, 0, 0] ++ List.replicate 496 255 ++ List.replicate 532 0 := by
    rw [fillUnusedEffects, fillUnusedEffectsAux_spec 31 _ 1
      (by simp only [List.length_append, List.length_replicate, hS]; omega)]
    rw [show (1 * 16 : Nat) = 16 from rfl, show (16 * 31 : Nat) = 496 from rfl,
      show (16 + 496 : Nat) = 512 from rfl]
    rw [take_append_of_length _ _ 16 hS]
    rw [drop_append_ge _ _ 512 (by rw [hS]; omega), hS,
      show (512 - 16 : Nat) = 496 from rfl, List.drop_replicate,
      show (1028 - 496 : Nat) = 532 from rfl]
  have hb0 : b32 0 0 = 0 := by decide
  have hb1 : b32 0 1 = 0 := by decide
  have hF : (serialize32 [(512 : Int), 1, 0, 0] ++ List.replicate 496 255).length = 512 := by
    simp only [List.length_append, List.length_replicate, hS]
  have h3 : write16Bits (serialize32 [(512 : Int), 1, 0, 0] ++ List.replicate 496 255 ++
      List.replicate 532 0) 512 0 =
      serialize32 [(512 : Int), 1, 0, 0] ++ List.replicate 496 255 ++ ([0, 0] : List Nat) ++
        List.replicate 530 0 := by
    rw [write16Bits_eq_setSeq, hb0, hb1,
      setSeq_spec _ _ _ (by simp only [List.length_append, List.length_replicate, hS,
        List.length_cons, List.length_nil]; omega)]
    rw [show (512 + ([0, 0] : List Nat).length : Nat) = 514 from rfl]
    rw [take_append_of_length _ _ 512 hF]
    rw [drop_append_ge _ _ 514 (by rw [hF]; omega), hF,
      show (514 - 512 : Nat) = 2 from rfl, List.drop_replicate,
      show (532 - 2 : Nat) = 530 from rfl]
  have hc0 : b32 528 0 = 16 := by decide
  have hc1 : b32 528 1 = 2 := by decide
  have hF2 : (serialize32 [(512 : Int), 1, 0, 0] ++ List.replicate 496 255 ++
      ([0, 0] : List Nat)).length = 514 := by
    simp only [List.length_append, List.length_replicate, hS, List.length_cons, List.length_nil]
  have h4 : write16Bits (serialize32 [(512 : Int), 1, 0, 0] ++ List.replicate 496 255 ++
      ([0, 0] : List Nat) ++ List.replicate 530 0) 514 528 =
      serialize32 [(512 : Int), 1, 0, 0] ++ List.replicate 496 255 ++ ([0, 0] : List Nat) ++
        ([16, 2] : List Nat) ++ List.replicate 528 0 := by
    rw [write16Bits_eq_setSeq, hc0, hc1,
      setSeq_spec _ _ _ (by simp only [List.length_append, List.length_replicate, hS,
        List.length_cons, List.length_nil]; omega)]
    rw [show (514 + ([16, 2] : List Nat).length : Nat) = 516 from rfl]
    rw [take_append_of_length _ _ 514 hF2]
    rw [drop_append_ge _ _ 516 (by rw [hF2]; omega), hF2,
      show (516 - 514 : Nat) = 2 from rfl, List.drop_replicate,
      show (530 - 2 : Nat) = 528 from rfl]
  have hF3 : (serialize32 [(512 : Int), 1, 0, 0] ++ List.replicate 496 255 ++
      ([0, 0] : List Nat) ++ ([16, 2] : List Nat)).length = 516 := by
    simp only [List.length_append, List.length_replicate, hS, List.length_cons, List.length_nil]
  rw [staticLightingBuffer, h0, h1, h2, h3, h4]
  rw [writeValues32_spec _ _ _ (by simp only [List.length_append, List.length_replicate, hS,
    List.length_cons, List.length_nil, h]; omega)]
  rw [take_append_of_length _ _ 516 hF3]
  rw [h, show (516 + 4 * 132 : Nat) = 1044 from rfl]
  rw [drop_append_ge _ _ 1044 (by rw [hF3]; omega), hF3,
    show (1044 - 516 : Nat) = 528 from rfl, List.drop_replicate,
    show (528 - 528 : Nat) = 0 from rfl, List.replicate_zero, List.append_nil]
  simp only [List.append_assoc, List.cons_append, List.nil_append]

/-- C3: for a 132-entry per-key color list, the logical Set Static
Lighting buffer is laid out as: a 32-slot by 16-byte effect table in
bytes 0..511 whose slot 0 is the four little-endian 32-bit words
[512, 1, 0, 0] and whose slots 1..31 each hold four words of 0xFFFFFFFF;
bytes 512..515 the two little-endian 16-bit words [0, 528] (static type,
payload byte count); and the remaining bytes the 132 per-key RGB values
as little-endian 32-bit words in order. -/
theorem staticLighting_buffer_layout (colors : List Int) (h : colors.length = 132) :
    (staticLightingBuffer colors).length = 1044 ∧
    (staticLightingBuffer colors).take 16 = serialize32 [512, 1, 0, 0] ∧
    (∀ i, 1 ≤ i → i < 32 → ((staticLightingBuffer colors).drop (16 * i)).take 16 =
      serialize32 [0xFFFFFFFF, 0xFFFFFFFF, 0xFFFFFFFF, 0xFFFFFFFF]) ∧
    ((staticLightingBuffer colors).drop 512).take 4 = le16 0 ++ le16 528 ∧
    (staticLightingBuffer colors).drop 516 = serialize32 colors ∧
    (serialize32 colors).length = 4 * 132 := by
  have hS : (serialize32 [(512 : Int), 1, 0, 0]).length = 16 := by decide
  have hE : staticLightingBuffer colors =
      serialize32 [512, 1, 0, 0] ++ (List.replicate 496 255 ++
        (([0, 0, 16, 2] : List Nat) ++ serialize32 colors)) := by
    rw [staticLightingBuffer_eq colors h]
    simp only [List.append_assoc]
  refine ⟨?_, ?_, ?_, ?_, ?_, ?_⟩
  · rw [hE]
    simp only [List.length_append, List.length_replicate, List.length_cons, List.length_nil,
      hS, serialize32_length, h]
  · rw [hE, List.take_append_eq_append_take, List.take_of_length_le (le_of_eq hS), hS,
      Nat.sub_self, List.take_zero, List.append_nil]
  · intro i h1 h2
    have hser : serialize32 [(0xFFFFFFFF : Int), 0xFFFFFFFF, 0xFFFFFFFF, 0xFFFFFFFF] =
        List.replicate 16 255 := by decide
    rw [hE, hser]
    rw [drop_append_ge _ _ (16 * i) (by rw [hS]; omega), hS]
    rw [List.drop_append_eq_append_drop, List.length_replicate]
    rw [show 16 * i - 16 - 496 = 0 from by omega, List.drop_zero, List.drop_replicate]
    rw [List.take_append_eq_append_take, List.length_replicate]
    rw [show 16 - (496 - (16 * i - 16)) = 0 from by omega, List.take_zero, List.append_nil]
    rw [List.take_replicate, Nat.min_def]
    rw [if_pos (by omega : (16 : Nat) ≤ 496 - (16 * i - 16))]
  · rw [hE]
    rw [drop_append_ge _ _ 512 (by rw [hS]; omega), hS, show (512 - 16 : Nat) = 496 from rfl]
    rw [drop_append_ge _ _ 496 (by simp only [List.length_replicate, le_refl]),
      List.length_replicate, Nat.sub_self, List.drop_zero]
    rw [take_append_of_length _ _ 4 (by rfl)]
    decide
  · rw [hE]
    rw [drop_append_ge _ _ 516 (by rw [hS]; omega), hS, show (516 - 16 : Nat) = 500 from rfl]
    rw [drop_append_ge _ _ 500 (by rw [List.length_replicate]; omega), List.length_replicate,
      show (500 - 496 : Nat) = 4 from rfl]
    rw [drop_append_ge _ _ 4 (by norm_num), show (4 - ([0, 0, 16, 2] : List Nat).length : Nat) =
      0 from rfl, List.drop_zero]
  · rw [serialize32_length, h]

/-- Witness for `staticLighting_buffer_layout` with 132 black keys. -/
theorem staticLighting_buffer_layout_witness :
    (List.replicate 132 (0 : Int)).length = 132 ∧
    ((staticLightingBuffer (List.replicate 132 0)).length = 1044 ∧
    (staticLightingBuffer (List.replicate 132 0)).take 16 = serialize32 [512, 1, 0, 0] ∧
    (∀ i, 1 ≤ i → i < 32 →
      ((staticLightingBuffer (List.replicate 132 0)).drop (16 * i)).take 16 =
        serialize32 [0xFFFFFFFF, 0xFFFFFFFF, 0xFFFFFFFF, 0xFFFFFFFF]) ∧
    ((staticLightingBuffer (List.replicate 132 0)).drop 512).take 4 = le16 0 ++ le16 528 ∧
    (staticLightingBuffer (List.replicate 132 0)).drop 516 =
      serialize32 (List.replicate 132 0) ∧
    (serialize32 (List.replicate 132 (0 : Int))).length = 4 * 132) :=
  ⟨by simp only [List.length_replicate],
   staticLighting_buffer_layout (List.replicate 132 0) (by simp only [List.length_replicate])⟩

/-- The chunked send loop of `commandLayerSetStaticLighting`: 56-byte
chunks at running offsets, full-offset mode, 1000 ms timeout, failing
with the generic error when a reply's command byte does not echo
`LayerSetLightValues` (0x27). -/
def staticLightingLoop (layerCode : Nat) (data : List Nat) (offset : Nat) (st : HidState) :
    Except PyErr Unit × HidState :=
  if h : offset < data.length then
    let chunkSize := min 0x38 (data.length - offset)
    let packetData := (data.drop offset).take chunkSize
    match sendCommand OpCodes.LayerSetLightValues layerCode offset chunkSize packetData true
      1000 false st with
    | (.error e, st1) => (.error e, st1)
    | (.ok none, st1) => (.error .attributeError, st1)
    | (.ok (some reply), st1) =>
      if reply.cmd ≠ OpCodes.LayerSetLightValues then (.error (.plainError "Error returned"), st1)
      else staticLightingLoop layerCode data (offset + chunkSize) st1
  else (.ok (), st)
termination_by data.length - offset
decreasing_by
  simp_wf
  omega

/-- `DK61.commandLayerSetStaticLighting`: build the logical buffer and
chunk it onto the wire. -/
def commandLayerSetStaticLighting (layerCode : Nat) (driverColorCodes : List Int)
    (st : HidState) : Except PyErr Unit × HidState :=
  staticLightingLoop layerCode (staticLightingBuffer driverColorCodes) 0 st

/-- The inner `while` of `commandCommonLayerSetKeyValues`: copy keycodes
into the 56-byte chunk buffer (`keyBufferSize = 14 * 4`) at positions
`kb = 0, 4, 8, ...` while `kb < 56` and codes remain; returns the filled
buffer, the final `keyBufferCounter` and the codes not yet consumed. -/
def fillKeyBuffer : List Int → List Nat → Nat → List Nat × Nat × List Int
  | [], data, kb => (data, kb, [])
  | c :: rest, data, kb =>
    if kb < 56 then fillKeyBuffer rest (write32Bits data kb c) (kb + 4)
    else (data, kb, c :: rest)

theorem fillKeyBuffer_rest_le : ∀ (cs : List Int) (data : List Nat) (kb : Nat),
    (fillKeyBuffer cs data kb).2.2.length ≤ cs.length := by
  intro cs
  induction cs with
  | nil => intro data kb; simp [fillKeyBuffer]
  | cons c rest ih =>
    intro data kb
    by_cases h : kb < 56
    · simp only [fillKeyBuffer, if_pos h]
      exact Nat.le_trans (ih _ _) (Nat.le_succ _)
    · simp [fillKeyBuffer, if_neg h]

theorem fillKeyBuffer_cons_lt (c : Int) (cs : List Int) (data : List Nat) :
    (fillKeyBuffer (c :: cs) data 0).2.2.length < (c :: cs).length := by
  simp only [fillKeyBuffer, if_pos (by omega : (0 : Nat) < 56)]
  exact Nat.lt_succ_of_le (fillKeyBuffer_rest_le cs _ 4)

theorem fillKeyBuffer_spec : ∀ (cs : List Int) (data : List Nat) (j : Nat), j ≤ 14 →
    fillKeyBuffer cs data (4 * j) =
      (writeValues32 data (4 * j) (cs.take (14 - j)),
        4 * j + 4 * min (14 - j) cs.length, cs.drop (14 - j)) := by
  intro cs
  induction cs with
  | nil =>
    intro data j hj
    simp [fillKeyBuffer, writeValues32]
  | cons c rest ih =>
    intro data j hj
    rcases Nat.lt_or_ge j 14 with hlt | hge
    · have h56 : 4 * j < 56 := by omega
      have hsub : 14 - j = (13 - j) + 1 := by omega
      simp only [fillKeyBuffer, if_pos h56]
      rw [show 4 * j + 4 = 4 * (j + 1) from by omega, ih _ (j + 1) (by omega)]
      rw [hsub, List.take_succ_cons, List.drop_succ_cons]
      simp only [writeValues32, Prod.mk.injEq]
      refine ⟨?_, ?_, ?_⟩
      · rw [show 4 * j + 4 = 4 * (j + 1) from by omega]
        rw [show 14 - (j + 1) = 13 - j from by omega]
      · simp only [List.length_cons]
        omega
      · rw [show 14 - (j + 1) = 13 - j from by omega]
    · have hj14 : j = 14 := by omega
      subst hj14
      simp only [fillKeyBuffer, if_neg (by omega : ¬ (4 * 14 < 56))]
      simp [writeValues32]

/-- The 56-byte chunk buffer for the next (up to 14) keycodes. -/
def chunkBuffer (cs : List Int) : List Nat :=
  serialize32 (cs.take 14) ++ List.replicate (56 - 4 * min 14 cs.length) 0

theorem chunkBuffer_length (cs : List Int) : (chunkBuffer cs).length = 56 := by
  rw [chunkBuffer, List.length_append, List.length_replicate, serialize32_length,
    List.length_take]
  omega

theorem chunkBuffer_ne_nil (cs : List Int) : chunkBuffer cs ≠ [] := by
  intro h
  have := chunkBuffer_length cs
  rw [h] at this
  simp at this

theorem fillKeyBuffer_run (cs : List Int) :
    fillKeyBuffer cs (List.replicate (14 * 4) 0) 0 =
      (chunkBuffer cs, 4 * min 14 cs.length, cs.drop 14) := by
  have h := fillKeyBuffer_spec cs (List.replicate (14 * 4) 0) 0 (by omega)
  simp only [Nat.mul_zero, Nat.sub_zero, Nat.zero_add] at h
  rw [h]
  rw [writeValues32_spec _ _ _ (by
    rw [List.length_replicate, List.length_take]
    omega)]
  rw [List.take_zero, List.nil_append, List.drop_replicate, chunkBuffer]
  rw [List.length_take]
  rw [show ∀ m : Nat, 14 * 4 - (0 + 4 * m) = 56 - 4 * m from fun m => by omega]

/-- The outer `while` of `DK61.commandCommonLayerSetKeyValues`: fill a
56-byte chunk, send it in small-offset mode with a 100 ms timeout and a
reply required, fail with the generic error on a command-byte mismatch,
advance the byte offset by the chunk size and continue. -/
def setKeyValuesLoop (opcode layerCode : Nat) :
    List Int → Nat → HidState → Except PyErr Unit × HidState
  | [], _, st => (.ok (), st)
  | c :: cs, offset, st =>
    let r := fillKeyBuffer (c :: cs) (List.replicate (14 * 4) 0) 0
    match sendCommand opcode layerCode offset r.2.1 r.1 true 100 true st with
    | (.error e, st1) => (.error e, st1)
    | (.ok none, st1) => (.error .attributeError, st1)
    | (.ok (some reply), st1) =>
      if reply.cmd ≠ opcode then (.error (.plainError "Error returned"), st1)
      else setKeyValuesLoop opcode layerCode r.2.2 (offset + r.2.1) st1
termination_by codes _ _ => codes.length
decreasing_by
  exact fillKeyBuffer_cons_lt c cs _

/-- `DK61.commandCommonLayerSetKeyValues`, starting at offset 0. -/
def commandCommonLayerSetKeyValues (opcode layerCode : Nat) (driverKeycodes : List Int)
    (st : HidState) : Except PyErr Unit × HidState :=
  setKeyValuesLoop opcode layerCode driverKeycodes 0 st

def commandLayerSetKeyValues (layerCode : Nat) (driverKeycodes : List Int) (st : HidState) :
    Except PyErr Unit × HidState :=
  commandCommonLayerSetKeyValues OpCodes.LayerSetKeyValues layerCode driverKeycodes st

def commandLayerFnSetKeyValues (layerCode : Nat) (driverKeycodes : List Int) (st : HidState) :
    Except PyErr Unit × HidState :=
  commandCommonLayerSetKeyValues OpCodes.LayerFnSetKeyValues layerCode driverKeycodes st

/-- The frames a successful Set Key Values run writes, one per chunk of
at most 14 codes, with running byte offsets. -/
def chunkFrames (opcode layerCode off : Nat) : List Int → List (List Nat × Nat)
  | [] => []
  | c :: cs =>
    ((smallOffsetPacket opcode layerCode off (4 * min 14 (c :: cs).length)
        (chunkBuffer (c :: cs))).packBytes, 100) ::
      chunkFrames opcode layerCode (off + 4 * min 14 (c :: cs).length) ((c :: cs).drop 14)
termination_by codes => codes.length
decreasing_by
  simp only [List.length_drop, List.length_cons]
  omega

theorem goodReplyBytes_length (opcode : Nat) : (goodReplyBytes opcode).length = 64 := by
  simp [goodReplyBytes]

theorem replyOf_goodReply_cmd (opcode : Nat) : (replyOf (goodReplyBytes opcode)).cmd = opcode := by
  simp [replyOf, goodReplyBytes]

/-- `sendCommand` in small-offset mode with a reply available: decoded
reply returned, frame appended, reply consumed. -/
theorem sendCommand_reply (cmd subcmd offset length : Nat) (data : List Nat) (t : Nat)
    (st : HidState) (r : List Nat) (rest : List (List Nat))
    (h1 : cmd < 256) (h2 : subcmd < 256) (h3 : length < 256)
    (h4 : offset &&& 0xff000000 = 0) (h5 : data ≠ [])
    (hr : st.replies = r :: rest) (hlen : r.length = 64) :
    sendCommand cmd subcmd offset length data true t true st =
      (.ok (some (replyOf r)),
        ⟨st.written ++ [((smallOffsetPacket cmd subcmd offset length data).packBytes, t)],
          rest⟩) := by
  rw [sendCommand_eq cmd subcmd offset length data true t true st h1 h2 h3 h4 (by simp)]
  simp only [if_neg h5, ite_true, hr]
  rw [ReplyPacket.unpack, if_pos hlen]

theorem fillKeyBuffer_run_fst (cs : List Int) :
    (fillKeyBuffer cs (List.replicate (14 * 4) 0) 0).1 = chunkBuffer cs := by
  rw [fillKeyBuffer_run]

theorem fillKeyBuffer_run_kb (cs : List Int) :
    (fillKeyBuffer cs (List.replicate (14 * 4) 0) 0).2.1 = 4 * min 14 cs.length := by
  rw [fillKeyBuffer_run]

theorem fillKeyBuffer_run_rest (cs : List Int) :
    (fillKeyBuffer cs (List.replicate (14 * 4) 0) 0).2.2 = cs.drop 14 := by
  rw [fillKeyBuffer_run]

/-- Full trace of a Set Key Values run against a device that echoes the
opcode in every reply: the loop succeeds, writes exactly the chunk
frames at running offsets, and consumes exactly one reply per chunk. -/
theorem setKeyValuesLoop_trace (opcode layerCode : Nat) (ho : opcode < 256)
    (hl : layerCode < 256) :
    ∀ (n : Nat) (codes : List Int), codes.length ≤ n →
    ∀ (off : Nat) (st : HidState) (extra : List (List Nat)),
    off + 4 * codes.length ≤ 2 ^ 24 →
    st.replies = List.replicate ((codes.length + 13) / 14) (goodReplyBytes opcode) ++ extra →
    setKeyValuesLoop opcode layerCode codes off st =
      (.ok (), ⟨st.written ++ chunkFrames opcode layerCode off codes, extra⟩) := by
  intro n
  induction n with
  | zero =>
    intro codes hn off st extra hoff hrep
    have hcodes : codes = [] := List.eq_nil_of_length_eq_zero (by omega)
    subst hcodes
    obtain ⟨w, rep⟩ := st
    simp only [List.length_nil, Nat.zero_add, Nat.reduceDiv, List.replicate_zero,
      List.nil_append] at hrep
    simp [setKeyValuesLoop, chunkFrames, hrep]
  | succ n ih =>
    intro codes hn off st extra hoff hrep
    cases codes with
    | nil =>
      obtain ⟨w, rep⟩ := st
      simp only [List.length_nil, Nat.zero_add, Nat.reduceDiv, List.replicate_zero,
        List.nil_append] at hrep
      simp [setKeyValuesLoop, chunkFrames, hrep]
    | cons c cs =>
      have hnum : ((c :: cs).length + 13) / 14 = (((c :: cs).drop 14).length + 13) / 14 + 1 := by
        simp only [List.length_cons, List.length_drop]
        omega
      rw [hnum, List.replicate_succ, List.cons_append] at hrep
      have hmask : off &&& 0xff000000 = 0 := by
        apply and_hi_eq_zero_of_lt
        simp only [List.length_cons] at hoff
        omega
      have hkb : 4 * min 14 (c :: cs).length < 256 := by
        have : min 14 (c :: cs).length ≤ 14 := Nat.min_le_left _ _
        omega
      have hsend := sendCommand_reply opcode layerCode off
        (4 * min 14 (c :: cs).length) (chunkBuffer (c :: cs)) 100 st
        (goodReplyBytes opcode)
        (List.replicate ((((c :: cs).drop 14).length + 13) / 14) (goodReplyBytes opcode) ++ extra)
        ho hl hkb hmask (chunkBuffer_ne_nil _) hrep (goodReplyBytes_length opcode)
      simp only [setKeyValuesLoop]
      rw [fillKeyBuffer_run_fst, fillKeyBuffer_run_kb, fillKeyBuffer_run_rest, hsend]
      simp only [replyOf_goodReply_cmd, ne_eq, not_true_eq_false, ite_false, if_neg]
      rw [ih ((c :: cs).drop 14)
        (by
          have hn' := hn
          simp only [List.length_cons] at hn'
          simp only [List.length_drop, List.length_cons]
          omega)
        (off + 4 * min 14 (c :: cs).length) _ extra
        (by
          have hchain : min 14 (c :: cs).length + ((c :: cs).drop 14).length ≤
              (c :: cs).length := by
            simp only [List.length_drop]
            omega
          omega)
        rfl]
      rw [chunkFrames]
      simp [List.append_assoc]

theorem serialize32_append (a b : List Int) :
    serialize32 (a ++ b) = serialize32 a ++ serialize32 b := by
  induction a with
  | nil => simp [serialize32]
  | cons v vs ih => simp [serialize32, ih]

theorem chunkFrames_length (opcode layerCode : Nat) :
    ∀ (n : Nat) (cs : List Int), cs.length ≤ n → ∀ (off : Nat),
    (chunkFrames opcode layerCode off cs).length = (cs.length + 13) / 14 := by
  intro n
  induction n with
  | zero =>
    intro cs h off
    have hcs : cs = [] := List.eq_nil_of_length_eq_zero (by omega)
    subst hcs
    simp [chunkFrames]
  | succ n ih =>
    intro cs h off
    cases cs with
    | nil => simp [chunkFrames]
    | cons c cs' =>
      rw [chunkFrames]
      simp only [List.length_cons]
      rw [ih ((c :: cs').drop 14)
        (by
          have h' := h
          simp only [List.length_cons] at h'
          simp only [List.length_drop, List.length_cons]
          omega) _]
      simp only [List.length_drop, List.length_cons]
      omega

theorem chunkFrames_facts (opcode layerCode : Nat) :
    ∀ (n : Nat) (cs : List Int), cs.length ≤ n → ∀ (off : Nat) (i : Nat),
    i < (chunkFrames opcode layerCode off cs).length →
    ((chunkFrames opcode layerCode off cs).getD i ([], 0)).2 = 100 ∧
    ((chunkFrames opcode layerCode off cs).getD i ([], 0)).1 =
      (smallOffsetPacket opcode layerCode (off + 56 * i)
        (4 * min 14 (cs.drop (14 * i)).length) (chunkBuffer (cs.drop (14 * i)))).packBytes := by
  intro n
  induction n with
  | zero =>
    intro cs h off i hi
    have hcs : cs = [] := List.eq_nil_of_length_eq_zero (by omega)
    subst hcs
    simp [chunkFrames] at hi
  | succ n ih =>
    intro cs h off i hi
    cases cs with
    | nil => simp [chunkFrames] at hi
    | cons c cs' =>
      cases i with
      | zero =>
        rw [chunkFrames]
        simp only [List.getD_cons_zero, Nat.mul_zero, Nat.add_zero, List.drop_zero]
        exact ⟨trivial, trivial⟩
      | succ i =>
        rw [chunkFrames] at hi ⊢
        simp only [List.getD_cons_succ]
        rw [List.length_cons] at hi
        have hi' : i < (chunkFrames opcode layerCode (off + 4 * min 14 (c :: cs').length)
            ((c :: cs').drop 14)).length := by omega
        have hfuel : ((c :: cs').drop 14).length ≤ n := by
          have h' := h
          rw [List.length_cons] at h'
          rw [List.length_drop, List.length_cons]
          omega
        have hlen14 : 14 ≤ (c :: cs').length := by
          by_contra hc
          have hz : ((c :: cs').drop 14).length = 0 := by
            rw [List.length_drop]
            omega
          rw [chunkFrames_length opcode layerCode n ((c :: cs').drop 14) hfuel _, hz] at hi'
          norm_num at hi'
        have hmin : 4 * min 14 (c :: cs').length = 56 := by
          rw [Nat.min_eq_left hlen14]
        obtain ⟨ht, hb⟩ := ih ((c :: cs').drop 14) hfuel
          (off + 4 * min 14 (c :: cs').length) i hi'
        refine ⟨ht, ?_⟩
        rw [hb, List.drop_drop, hmin]
        rw [show 14 + 14 * i = 14 * (i + 1) from by omega,
          show off + 56 + 56 * i = off + 56 * (i + 1) from by omega]

theorem chunkFrames_payload (opcode layerCode : Nat) :
    ∀ (n : Nat) (cs : List Int), cs.length ≤ n → ∀ (off : Nat),
    List.flatten ((chunkFrames opcode layerCode off cs).map
      (fun f => (f.1.drop 8).take (f.1.getD 4 0))) = serialize32 cs := by
  intro n
  induction n with
  | zero =>
    intro cs h off
    have hcs : cs = [] := List.eq_nil_of_length_eq_zero (by omega)
    subst hcs
    simp [chunkFrames, serialize32]
  | succ n ih =>
    intro cs h off
    cases cs with
    | nil => simp [chunkFrames, serialize32]
    | cons c cs' =>
      rw [chunkFrames]
      simp only [List.map_cons, List.flatten_cons]
      have hd4 : (smallOffsetPacket opcode layerCode off (4 * min 14 (c :: cs').length)
          (chunkBuffer (c :: cs'))).packBytes.getD 4 0 = 4 * min 14 (c :: cs').length := by
        simp [smallOffsetPacket, CommandPacket.packBytes]
      have hd8 : (smallOffsetPacket opcode layerCode off (4 * min 14 (c :: cs').length)
          (chunkBuffer (c :: cs'))).packBytes.drop 8 = chunkBuffer (c :: cs') := by
        simp [smallOffsetPacket, CommandPacket.packBytes,
          pad56_of_length_eq _ (chunkBuffer_length _)]
      rw [hd4, hd8]
      have htake : (chunkBuffer (c :: cs')).take (4 * min 14 (c :: cs').length) =
          serialize32 ((c :: cs').take 14) := by
        rw [chunkBuffer]
        apply take_append_of_length
        rw [serialize32_length, List.length_take]
      rw [htake, ih ((c :: cs').drop 14)
        (by
          have h' := h
          simp only [List.length_cons] at h'
          simp only [List.length_drop, List.length_cons]
          omega) _]
      rw [← serialize32_append, List.take_append_drop]

theorem smallOffsetPacket_bytes (cmd subcmd off len : Nat) (d : List Nat) :
    (smallOffsetPacket cmd subcmd off len d).packBytes.getD 2 0 +
      256 * (smallOffsetPacket cmd subcmd off len d).packBytes.getD 3 0 = off % 65536 ∧
    (smallOffsetPacket cmd subcmd off len d).packBytes.getD 4 0 = len ∧
    (smallOffsetPacket cmd subcmd off len d).packBytes.getD 5 0 = 0 := by
  refine ⟨?_, ?_, ?_⟩
  · simp only [smallOffsetPacket, CommandPacket.packBytes, List.getD_cons_succ,
      List.getD_cons_zero]
    rw [Nat.mod_add_div, and_ffff_eq_mod]
  · simp [smallOffsetPacket, CommandPacket.packBytes]
  · simp [smallOffsetPacket, CommandPacket.packBytes]

/-- C2 (amended): for a key-code sequence of length `L ≥ 1` with
`4L ≤ 2^24`, against a device echoing the opcode, the Set Key Values
operation (normal and Fn variant share the algorithm) sends exactly
`ceil(4L/56)` frames with a 100 ms timeout each; frame `i` carries the
running byte offset `56·i` reduced mod 2^16 in its offset field (bytes
2-3; this equals the running byte offset whenever `4L ≤ 2^16`), the
chunk byte count `min 56 (4L - 56·i)` in byte 4 (the small-offset layout
puts the length argument there; declared-length byte 5 is 0), and
concatenating the byte-4-length prefixes of all frame payloads in order
reconstructs the `4L`-byte little-endian serialization of the key codes
exactly. -/
theorem setKeyValues_chunking (fn : Bool) (layerCode : Nat) (codes : List Int)
    (st : HidState) (extra : List (List Nat))
    (hl : layerCode < 256) (hn : 1 ≤ codes.length) (hb : 4 * codes.length ≤ 2 ^ 24)
    (hrep : st.replies = List.replicate ((codes.length + 13) / 14)
      (goodReplyBytes (if fn then 0x31 else 0x22)) ++ extra) :
    ∃ frames,
      commandCommonLayerSetKeyValues (if fn then 0x31 else 0x22) layerCode codes st =
        (.ok (), ⟨st.written ++ frames, extra⟩) ∧
      frames.length = (4 * codes.length + 55) / 56 ∧
      (∀ i, i < frames.length →
        (frames.getD i ([], 0)).2 = 100 ∧
        (frames.getD i ([], 0)).1.length = 64 ∧
        (frames.getD i ([], 0)).1.getD 2 0 + 256 * (frames.getD i ([], 0)).1.getD 3 0 =
          (56 * i) % 65536 ∧
        (frames.getD i ([], 0)).1.getD 4 0 = min 56 (4 * codes.length - 56 * i) ∧
        (frames.getD i ([], 0)).1.getD 5 0 = 0) ∧
      List.flatten (frames.map (fun f => (f.1.drop 8).take (f.1.getD 4 0))) =
        serialize32 codes ∧
      (serialize32 codes).length = 4 * codes.length := by
  have ho : (if fn then 0x31 else 0x22 : Nat) < 256 := by cases fn <;> norm_num
  refine ⟨chunkFrames (if fn then 0x31 else 0x22) layerCode 0 codes, ?_, ?_, ?_, ?_, ?_⟩
  · rw [commandCommonLayerSetKeyValues]
    exact setKeyValuesLoop_trace _ layerCode ho hl codes.length codes le_rfl 0 st extra
      (by omega) hrep
  · rw [chunkFrames_length _ _ codes.length codes le_rfl 0]
    omega
  · intro i hi
    obtain ⟨ht, hbb⟩ := chunkFrames_facts _ layerCode codes.length codes le_rfl 0 i hi
    refine ⟨ht, ?_, ?_, ?_, ?_⟩
    · rw [hbb]
      exact CommandPacket.packBytes_length _
    · rw [hbb]
      have hx := (smallOffsetPacket_bytes (if fn then 0x31 else 0x22) layerCode (0 + 56 * i)
        (4 * min 14 (codes.drop (14 * i)).length) (chunkBuffer (codes.drop (14 * i)))).1
      exact hx.trans (by rw [Nat.zero_add])
    · rw [hbb]
      rw [(smallOffsetPacket_bytes (if fn then 0x31 else 0x22) layerCode (0 + 56 * i)
        (4 * min 14 (codes.drop (14 * i)).length) (chunkBuffer (codes.drop (14 * i)))).2.1]
      rw [List.length_drop]
      omega
    · rw [hbb]
      exact (smallOffsetPacket_bytes (if fn then 0x31 else 0x22) layerCode (0 + 56 * i)
        (4 * min 14 (codes.drop (14 * i)).length) (chunkBuffer (codes.drop (14 * i)))).2.2
  · exact chunkFrames_payload _ layerCode codes.length codes le_rfl 0
  · rw [serialize32_length]

/-- Witness for `setKeyValues_chunking` on the one-code sequence [5]. -/
theorem setKeyValues_chunking_witness :
    ((2 : Nat) < 256) ∧ (1 ≤ ([(5 : Int)]).length) ∧ (4 * ([(5 : Int)]).length ≤ 2 ^ 24) ∧
    ((⟨[], [goodReplyBytes (if false then 0x31 else 0x22)]⟩ : HidState).replies =
      List.replicate ((([(5 : Int)]).length + 13) / 14)
        (goodReplyBytes (if false then 0x31 else 0x22)) ++ []) ∧
    ∃ frames,
      commandCommonLayerSetKeyValues (if false then 0x31 else 0x22) 2 [(5 : Int)]
          ⟨[], [goodReplyBytes (if false then 0x31 else 0x22)]⟩ =
        (.ok (), ⟨(⟨[], [goodReplyBytes (if false then 0x31 else 0x22)]⟩ : HidState).written ++
          frames, []⟩) ∧
      frames.length = (4 * ([(5 : Int)]).length + 55) / 56 ∧
      (∀ i, i < frames.length →
        (frames.getD i ([], 0)).2 = 100 ∧
        (frames.getD i ([], 0)).1.length = 64 ∧
        (frames.getD i ([], 0)).1.getD 2 0 + 256 * (frames.getD i ([], 0)).1.getD 3 0 =
          (56 * i) % 65536 ∧
        (frames.getD i ([], 0)).1.getD 4 0 = min 56 (4 * ([(5 : Int)]).length - 56 * i) ∧
        (frames.getD i ([], 0)).1.getD 5 0 = 0) ∧
      List.flatten (frames.map (fun f => (f.1.drop 8).take (f.1.getD 4 0))) =
        serialize32 [(5 : Int)] ∧
      (serialize32 [(5 : Int)]).length = 4 * ([(5 : Int)]).length :=
  ⟨by decide, by decide, by decide, by simp,
   setKeyValues_chunking false 2 [(5 : Int)] ⟨[], [goodReplyBytes (if false then 0x31 else 0x22)]⟩
     [] (by decide) (by decide) (by decide) (by simp)⟩

/-- C2 counterexample: for a 16400-code sequence the run succeeds and
sends 1172 frames, but frame 1171 has running byte offset
56 · 1171 = 65576 while its offset field holds 65576 mod 2^16 = 40 —
the offset field is not the running byte offset. -/
theorem setKeyValues_offset_wrap_cex :
    (commandCommonLayerSetKeyValues 0x22 2 (List.replicate 16400 0)
        ⟨[], List.replicate 1172 (goodReplyBytes 0x22)⟩).1 = .ok () ∧
    (commandCommonLayerSetKeyValues 0x22 2 (List.replicate 16400 0)
        ⟨[], List.replicate 1172 (goodReplyBytes 0x22)⟩).2.written.length = 1172 ∧
    ((commandCommonLayerSetKeyValues 0x22 2 (List.replicate 16400 0)
        ⟨[], List.replicate 1172 (goodReplyBytes 0x22)⟩).2.written.getD 1171 ([], 0)).1.getD 2 0 +
      256 * ((commandCommonLayerSetKeyValues 0x22 2 (List.replicate 16400 0)
        ⟨[], List.replicate 1172 (goodReplyBytes 0x22)⟩).2.written.getD 1171 ([], 0)).1.getD 3 0 =
      40 ∧
    56 * 1171 = 65576 ∧ (40 : Nat) ≠ 65576 := by
  have hrun : commandCommonLayerSetKeyValues 0x22 2 (List.replicate 16400 (0 : Int))
      ⟨[], List.replicate 1172 (goodReplyBytes 0x22)⟩ =
      (.ok (), ⟨[] ++ chunkFrames 0x22 2 0 (List.replicate 16400 0), []⟩) := by
    rw [commandCommonLayerSetKeyValues]
    exact setKeyValuesLoop_trace 0x22 2 (by norm_num) (by norm_num) 16400
      (List.replicate 16400 0) (by rw [List.length_replicate]) 0
      ⟨[], List.replicate 1172 (goodReplyBytes 0x22)⟩ []
      (by rw [List.length_replicate]; norm_num)
      (by
        show List.replicate 1172 (goodReplyBytes 0x22) =
          List.replicate (((List.replicate 16400 (0 : Int)).length + 13) / 14)
            (goodReplyBytes 0x22) ++ []
        rw [List.length_replicate, List.append_nil])
  have hflen : (chunkFrames 0x22 2 0 (List.replicate 16400 (0 : Int))).length = 1172 := by
    rw [chunkFrames_length 0x22 2 16400 (List.replicate 16400 0)
      (by rw [List.length_replicate]) 0, List.length_replicate]
  refine ⟨?_, ?_, ?_, by norm_num, by norm_num⟩
  · rw [hrun]
  · rw [hrun]
    simp only [List.nil_append]
    exact hflen
  · rw [hrun]
    simp only [List.nil_append]
    obtain ⟨-, hbb⟩ := chunkFrames_facts 0x22 2 16400 (List.replicate 16400 0)
      (by rw [List.length_replicate]) 0 1171 (by rw [hflen]; norm_num)
    rw [hbb]
    have hx := (smallOffsetPacket_bytes 0x22 2 (0 + 56 * 1171)
      (4 * min 14 ((List.replicate 16400 (0 : Int)).drop (14 * 1171)).length)
      (chunkBuffer ((List.replicate 16400 (0 : Int)).drop (14 * 1171)))).1
    rw [hx]

theorem replyOf_cmd (r : List Nat) : (replyOf r).cmd = r.getD 0 0 := rfl

/-- `sendCommand` in full-offset mode with a reply available. -/
theorem sendCommand_reply_full (cmd subcmd offset length : Nat) (data : List Nat) (t : Nat)
    (st : HidState) (r : List Nat) (rest : List (List Nat))
    (h1 : cmd < 256) (h2 : subcmd < 256) (h3 : length < 256)
    (h4 : offset &&& 0xff000000 = 0) (h4b : offset >>> 16 < 256) (h5 : data ≠ [])
    (hr : st.replies = r :: rest) (hlen : r.length = 64) :
    sendCommand cmd subcmd offset length data true t false st =
      (.ok (some (replyOf r)),
        ⟨st.written ++ [((fullOffsetPacket cmd subcmd offset length data).packBytes, t)],
          rest⟩) := by
  rw [sendCommand_eq cmd subcmd offset length data true t false st h1 h2 h3 h4 (fun _ => h4b)]
  simp only [if_neg h5, ite_false, hr]
  rw [ReplyPacket.unpack, if_pos hlen]
  simp

/-- A command-byte mismatch on the next key-values chunk: the chunk frame
is written, then the loop aborts with the module's generic
`Error("Error returned")` and no further frames are sent. -/
theorem setKeyValuesLoop_desync (opcode layerCode : Nat) (c : Int) (cs : List Int)
    (off : Nat) (st : HidState) (r : List Nat) (rest : List (List Nat))
    (ho : opcode < 256) (hl : layerCode < 256) (hmask : off &&& 0xff000000 = 0)
    (hr : st.replies = r :: rest) (hlen : r.length = 64) (hne : r.getD 0 0 ≠ opcode) :
    setKeyValuesLoop opcode layerCode (c :: cs) off st =
      (.error (.plainError "Error returned"),
        ⟨st.written ++ [((smallOffsetPacket opcode layerCode off
          (4 * min 14 (c :: cs).length) (chunkBuffer (c :: cs))).packBytes, 100)], rest⟩) := by
  have hkb : 4 * min 14 (c :: cs).length < 256 := by
    have : min 14 (c :: cs).length ≤ 14 := Nat.min_le_left _ _
    omega
  simp only [setKeyValuesLoop]
  rw [fillKeyBuffer_run_fst, fillKeyBuffer_run_kb, fillKeyBuffer_run_rest]
  rw [sendCommand_reply opcode layerCode off (4 * min 14 (c :: cs).length)
    (chunkBuffer (c :: cs)) 100 st r rest ho hl hkb hmask (chunkBuffer_ne_nil _) hr hlen]
  simp only [replyOf_cmd]
  rw [if_pos hne]

/-- A command-byte mismatch on the next static-lighting chunk: the chunk
frame is written, then the loop aborts with the generic error and no
further frames are sent. -/
theorem staticLightingLoop_desync (layerCode : Nat) (data : List Nat) (off : Nat)
    (st : HidState) (r : List Nat) (rest : List (List Nat))
    (hl : layerCode < 256) (hoff : off < 2 ^ 24) (hlt : off < data.length)
    (hr : st.replies = r :: rest) (hlen : r.length = 64) (hne : r.getD 0 0 ≠ 0x27) :
    staticLightingLoop layerCode data off st =
      (.error (.plainError "Error returned"),
        ⟨st.written ++ [((fullOffsetPacket 0x27 layerCode off (min 0x38 (data.length - off))
          ((data.drop off).take (min 0x38 (data.length - off)))).packBytes, 1000)], rest⟩) := by
  have hmask : off &&& 0xff000000 = 0 := and_hi_eq_zero_of_lt hoff
  have hsh : off >>> 16 < 256 := by
    rw [Nat.shiftRight_eq_div_pow]
    omega
  have hchunk : min 0x38 (data.length - off) < 256 := by
    have := Nat.min_le_left 0x38 (data.length - off)
    omega
  have hne2 : (data.drop off).take (min 0x38 (data.length - off)) ≠ [] := by
    apply List.ne_nil_of_length_pos
    rw [List.length_take, List.length_drop]
    omega
  rw [staticLightingLoop, dif_pos hlt]
  rw [show OpCodes.LayerSetLightValues = 0x27 from rfl]
  simp only []
  rw [sendCommand_reply_full 0x27 layerCode off (min 0x38 (data.length - off))
    ((data.drop off).take (min 0x38 (data.length - off))) 1000 st r rest (by norm_num) hl
    hchunk hmask hsh hne2 hr hlen]
  simp only [replyOf_cmd]
  rw [if_pos hne]

/-- C7 (amended): whenever a reply's command byte differs from the
request's during a Set Key Values or Set Static Lighting operation, the
operation fails with the module's generic `Error("Error returned")` —
not with the `CmdError` subclass, which the source defines but never
raises, so neither the echoed command byte nor the raw reply is carried —
and no further frames are sent for that operation (the trace gains only
the frame whose reply mismatched). -/
theorem desync_generic_error :
    (∀ (opcode layerCode : Nat) (c : Int) (cs : List Int) (off : Nat) (st : HidState)
      (r : List Nat) (rest : List (List Nat)),
      opcode < 256 → layerCode < 256 → off &&& 0xff000000 = 0 →
      st.replies = r :: rest → r.length = 64 → r.getD 0 0 ≠ opcode →
      setKeyValuesLoop opcode layerCode (c :: cs) off st =
        (.error (.plainError "Error returned"),
          ⟨st.written ++ [((smallOffsetPacket opcode layerCode off
            (4 * min 14 (c :: cs).length) (chunkBuffer (c :: cs))).packBytes, 100)], rest⟩) ∧
      PyErr.isCmdError (.plainError "Error returned") = false) ∧
    (∀ (layerCode : Nat) (data : List Nat) (off : Nat) (st : HidState)
      (r : List Nat) (rest : List (List Nat)),
      layerCode < 256 → off < 2 ^ 24 → off < data.length →
      st.replies = r :: rest → r.length = 64 → r.getD 0 0 ≠ 0x27 →
      staticLightingLoop layerCode data off st =
        (.error (.plainError "Error returned"),
          ⟨st.written ++ [((fullOffsetPacket 0x27 layerCode off (min 0x38 (data.length - off))
            ((data.drop off).take (min 0x38 (data.length - off)))).packBytes, 1000)], rest⟩) ∧
      PyErr.isCmdError (.plainError "Error returned") = false) := by
  constructor
  · intro opcode layerCode c cs off st r rest ho hl hmask hr hlen hne
    exact ⟨setKeyValuesLoop_desync opcode layerCode c cs off st r rest ho hl hmask hr hlen hne,
      rfl⟩
  · intro layerCode data off st r rest hl hoff hlt hr hlen hne
    exact ⟨staticLightingLoop_desync layerCode data off st r rest hl hoff hlt hr hlen hne, rfl⟩

/-- Witness for `desync_generic_error` at concrete mismatching replies. -/
theorem desync_generic_error_witness :
    (setKeyValuesLoop 0x22 2 [(0 : Int)] 0 ⟨[], [goodReplyBytes 0x99]⟩ =
        (.error (.plainError "Error returned"),
          ⟨([] : List (List Nat × Nat)) ++ [((smallOffsetPacket 0x22 2 0
            (4 * min 14 ([(0 : Int)]).length) (chunkBuffer [(0 : Int)])).packBytes, 100)], []⟩) ∧
      PyErr.isCmdError (.plainError "Error returned") = false) ∧
    (staticLightingLoop 2 (List.replicate 60 0) 0 ⟨[], [goodReplyBytes 0x99]⟩ =
        (.error (.plainError "Error returned"),
          ⟨([] : List (List Nat × Nat)) ++ [((fullOffsetPacket 0x27 2 0
            (min 0x38 ((List.replicate 60 (0 : Nat)).length - 0))
            (((List.replicate 60 (0 : Nat)).drop 0).take
              (min 0x38 ((List.replicate 60 (0 : Nat)).length - 0)))).packBytes, 1000)], []⟩) ∧
      PyErr.isCmdError (.plainError "Error returned") = false) :=
  ⟨desync_generic_error.1 0x22 2 0 [] 0 ⟨[], [goodReplyBytes 0x99]⟩ (goodReplyBytes 0x99) []
     (by decide) (by decide) (by decide) rfl (by decide) (by decide),
   desync_generic_error.2 2 (List.replicate 60 0) 0 ⟨[], [goodReplyBytes 0x99]⟩
     (goodReplyBytes 0x99) [] (by decide) (by decide) (by decide) rfl (by decide) (by decide)⟩

/-- C7 counterexample: a concrete Set Key Values run whose reply echoes
command byte 0x99 instead of 0x22 fails with the generic
`Error("Error returned")`, which is not a `CmdError` and carries no
reply, and exactly one frame (the mismatched chunk) was written. -/
theorem desync_error_cex :
    commandCommonLayerSetKeyValues 0x22 2 [(0 : Int)] ⟨[], [goodReplyBytes 0x99]⟩ =
      (.error (.plainError "Error returned"),
        ⟨[((smallOffsetPacket 0x22 2 0 (4 * min 14 ([(0 : Int)]).length)
          (chunkBuffer [(0 : Int)])).packBytes, 100)], []⟩) ∧
    PyErr.isCmdError (.plainError "Error returned") = false ∧
    (commandCommonLayerSetKeyValues 0x22 2 [(0 : Int)]
      ⟨[], [goodReplyBytes 0x99]⟩).2.written.length = 1 := by
  have h := setKeyValuesLoop_desync 0x22 2 0 [] 0 ⟨[], [goodReplyBytes 0x99]⟩
    (goodReplyBytes 0x99) [] (by decide) (by decide) (by decide) rfl (by decide) (by decide)
  refine ⟨?_, rfl, ?_⟩
  · rw [commandCommonLayerSetKeyValues, h]
    rfl
  · rw [commandCommonLayerSetKeyValues, h]
    rfl

/-- Per-layer entry of `DK61.layerCodes`. -/
structure LayerCodeInfo where
  code : Nat
  isFnLayer : Bool
deriving DecidableEq

/-- The static layer-name table (`KeyboardLayer.Layer1 = 2`, `Layer2 = 3`,
`Layer3 = 4`; the Fn variants reuse the codes with the flag set). -/
def layerCodes : List (String × LayerCodeInfo) :=
  [("Layer1", ⟨2, false⟩), ("Layer2", ⟨3, false⟩), ("Layer3", ⟨4, false⟩),
   ("FnLayer1", ⟨2, true⟩), ("FnLayer2", ⟨3, true⟩), ("FnLayer3", ⟨4, true⟩)]

def srcWrongMsg (src layerName : String) : String :=
  "Source Keyname is wrong: " ++ src ++ " inside " ++ layerName

def dstWrongMsg (dst layerName : String) : String :=
  "Destination Keyname is wrong: " ++ dst ++ " inside " ++ layerName

/-- The validation loop at the top of `setAllLayers`' per-layer body:
every source and destination key name must be in the key-code table, and
the first offending pair raises a `LookupError` naming it and the layer. -/
def validateLayer (mapKeycodes : List (String × Int)) (layerName : String) :
    List (String × String) → Except PyErr Unit
  | [] => .ok ()
  | (src, dst) :: rest =>
    if (mapKeycodes.lookup src).isNone then
      .error (.lookupError (srcWrongMsg src layerName))
    else if (mapKeycodes.lookup dst).isNone then
      .error (.lookupError (dstWrongMsg dst layerName))
    else validateLayer mapKeycodes layerName rest

/-- The key-code sequence built for one layer: every physical key defaults
to the `UnusedKey` code, keys present in the layer map resolve their
destination name through the key-code table (always present after
validation; the 0 default is unreachable then). -/
def buildDriverKeycodes (mapKeycodes : List (String × Int)) (keyboardKeys : List String)
    (layerKeymap : List (String × String)) (unusedKeyCode : Int) : List Int :=
  keyboardKeys.map (fun keyName =>
    match layerKeymap.lookup keyName with
    | some dst => (mapKeycodes.lookup dst).getD 0
    | none => unusedKeyCode)

/-- One iteration of `setAllLayers`' layer loop: validate, resolve the
unused-key code (`KeyError` if the table lacks it), build the key codes,
resolve the layer (`KeyError` on an unknown layer name), then reset the
layer's key set and upload the key values. -/
def processLayer (mapKeycodes : List (String × Int)) (keyboardKeys : List String)
    (layerName : String) (layerKeymap : List (String × String)) (st : HidState) :
    Except PyErr Unit × HidState :=
  match validateLayer mapKeycodes layerName layerKeymap with
  | .error e => (.error e, st)
  | .ok () =>
    match mapKeycodes.lookup "UnusedKey" with
    | none => (.error (.keyError "UnusedKey"), st)
    | some unusedKeyCode =>
      let driverKeycodes := buildDriverKeycodes mapKeycodes keyboardKeys layerKeymap
        unusedKeyCode
      match layerCodes.lookup layerName with
      | none => (.error (.keyError layerName), st)
      | some info =>
        if info.isFnLayer then
          match wipeoutLayer info.code KeyboardLayerDataType.FnKeySet true st with
          | (.error e, st1) => (.error e, st1)
          | (.ok _, st1) => commandLayerFnSetKeyValues info.code driverKeycodes st1
        else
          match wipeoutLayer info.code KeyboardLayerDataType.KeySet true st with
          | (.error e, st1) => (.error e, st1)
          | (.ok _, st1) => commandLayerSetKeyValues info.code driverKeycodes st1

/-- `DK61.setAllLayers`: process the configured layers in order; an
exception from one layer aborts the rest but keeps the frames already
written. -/
def setAllLayers (mapKeycodes : List (String × Int)) (keyboardKeys : List String) :
    List (String × List (String × String)) → HidState → Except PyErr Unit × HidState
  | [], st => (.ok (), st)
  | (layerName, layerKeymap) :: rest, st =>
    match processLayer mapKeycodes keyboardKeys layerName layerKeymap st with
    | (.error e, st1) => (.error e, st1)
    | (.ok (), st1) => setAllLayers mapKeycodes keyboardKeys rest st1

theorem validateLayer_err (mk : List (String × Int)) (layerName : String) :
    ∀ (lkm : List (String × String)),
    (∃ pr ∈ lkm, (mk.lookup pr.1).isNone ∨ (mk.lookup pr.2).isNone) →
    ∃ msg, validateLayer mk layerName lkm = .error (.lookupError msg) ∧
      ((∃ pr ∈ lkm, mk.lookup pr.1 = none ∧ msg = srcWrongMsg pr.1 layerName) ∨
       (∃ pr ∈ lkm, mk.lookup pr.2 = none ∧ msg = dstWrongMsg pr.2 layerName)) := by
  intro lkm
  induction lkm with
  | nil =>
    rintro ⟨pr, hpr, -⟩
    simp at hpr
  | cons p rest ih =>
    rintro ⟨pr, hpr, hbad⟩
    obtain ⟨src, dst⟩ := p
    by_cases hs : (mk.lookup src).isNone
    · refine ⟨srcWrongMsg src layerName, ?_, .inl ⟨(src, dst), by simp, ?_, rfl⟩⟩
      · simp only [validateLayer, if_pos hs]
      · exact Option.isNone_iff_eq_none.mp hs
    · by_cases hd : (mk.lookup dst).isNone
      · refine ⟨dstWrongMsg dst layerName, ?_, .inr ⟨(src, dst), by simp, ?_, rfl⟩⟩
        · simp only [validateLayer, if_neg hs, if_pos hd]
        · exact Option.isNone_iff_eq_none.mp hd
      · have hrest : ∃ pr ∈ rest, (mk.lookup pr.1).isNone ∨ (mk.lookup pr.2).isNone := by
          rcases List.mem_cons.mp hpr with heq | hmem
          · subst heq
            rcases hbad with hb | hb
            · exact absurd hb hs
            · exact absurd hb hd
          · exact ⟨pr, hmem, hbad⟩
        obtain ⟨msg, hval, hor⟩ := ih hrest
        refine ⟨msg, ?_, ?_⟩
        · simp only [validateLayer, if_neg hs, if_neg hd]
          exact hval
        · rcases hor with ⟨pr', hm, hn, he⟩ | ⟨pr', hm, hn, he⟩
          · exact .inl ⟨pr', List.mem_cons_of_mem _ hm, hn, he⟩
          · exact .inr ⟨pr', List.mem_cons_of_mem _ hm, hn, he⟩

theorem setAllLayers_append (mk : List (String × Int)) (keys : List String) :
    ∀ (l1 l2 : List (String × List (String × String))) (st : HidState),
    setAllLayers mk keys (l1 ++ l2) st =
      match setAllLayers mk keys l1 st with
      | (.error e, st1) => (.error e, st1)
      | (.ok (), st1) => setAllLayers mk keys l2 st1 := by
  intro l1
  induction l1 with
  | nil =>
    intro l2 st
    simp [setAllLayers]
  | cons p rest ih =>
    intro l2 st
    obtain ⟨name, lkm⟩ := p
    rw [List.cons_append]
    simp only [setAllLayers]
    rcases hp : processLayer mk keys name lkm st with ⟨res, st1⟩
    cases res with
    | error e => rfl
    | ok u =>
      cases u
      exact ih l2 st1

theorem sendCommand_written_mono (cmd subcmd offset length : Nat) (data : List Nat)
    (getreply : Bool) (rt : Nat) (so : Bool) (st : HidState) :
    ∃ tail, (sendCommand cmd subcmd offset length data getreply rt so st).2.written =
      st.written ++ tail := by
  unfold sendCommand
  by_cases hmask : offset &&& 0xff000000 ≠ 0
  · rw [if_pos hmask]
    exact ⟨[], by simp⟩
  · rw [if_neg hmask]
    simp only []
    split
    · exact ⟨[], by simp⟩
    · split
      · exact ⟨[], by simp⟩
      · split
        · split
          · exact ⟨_, rfl⟩
          · split
            · exact ⟨_, rfl⟩
            · exact ⟨_, rfl⟩
        · exact ⟨_, rfl⟩

theorem wipeoutLayer_written_mono (layerCode dataType : Nat) (g : Bool) (st : HidState) :
    ∃ tail, (wipeoutLayer layerCode dataType g st).2.written = st.written ++ tail :=
  sendCommand_written_mono OpCodes.LayerResetDataType layerCode dataType 0 [] g 1000 false st

theorem setKeyValuesLoop_written_mono (opcode layerCode : Nat) :
    ∀ (n : Nat) (codes : List Int), codes.length ≤ n → ∀ (off : Nat) (st : HidState),
    ∃ tail, (setKeyValuesLoop opcode layerCode codes off st).2.written =
      st.written ++ tail := by
  intro n
  induction n with
  | zero =>
    intro codes hn off st
    have hcodes : codes = [] := List.eq_nil_of_length_eq_zero (by omega)
    subst hcodes
    exact ⟨[], by simp [setKeyValuesLoop]⟩
  | succ n ih =>
    intro codes hn off st
    cases codes with
    | nil => exact ⟨[], by simp [setKeyValuesLoop]⟩
    | cons c cs =>
      obtain ⟨t1, ht1⟩ := sendCommand_written_mono opcode layerCode off
        (fillKeyBuffer (c :: cs) (List.replicate (14 * 4) 0) 0).2.1
        (fillKeyBuffer (c :: cs) (List.replicate (14 * 4) 0) 0).1 true 100 true st
      simp only [setKeyValuesLoop]
      cases hsend : sendCommand opcode layerCode off
          (fillKeyBuffer (c :: cs) (List.replicate (14 * 4) 0) 0).2.1
          (fillKeyBuffer (c :: cs) (List.replicate (14 * 4) 0) 0).1 true 100 true st with
      | mk res st1 =>
        have hsnd : (sendCommand opcode layerCode off
            (fillKeyBuffer (c :: cs) (List.replicate (14 * 4) 0) 0).2.1
            (fillKeyBuffer (c :: cs) (List.replicate (14 * 4) 0) 0).1 true 100 true st).2
              = st1 := by
          rw [hsend]
        rw [hsnd] at ht1
        cases res with
        | error e => exact ⟨t1, ht1⟩
        | ok o =>
          cases o with
          | none => exact ⟨t1, ht1⟩
          | some reply =>
            simp only []
            by_cases hc : reply.cmd ≠ opcode
            · rw [if_pos hc]
              exact ⟨t1, ht1⟩
            · rw [if_neg hc]
              have hlen : (fillKeyBuffer (c :: cs) (List.replicate (14 * 4) 0) 0).2.2.length
                  ≤ n := by
                have h2 := fillKeyBuffer_cons_lt c cs (List.replicate (14 * 4) 0)
                have hn' := hn
                rw [List.length_cons] at h2 hn'
                omega
              obtain ⟨t2, ht2⟩ := ih _ hlen
                (off + (fillKeyBuffer (c :: cs) (List.replicate (14 * 4) 0) 0).2.1) st1
              exact ⟨t1 ++ t2, by rw [ht2, ht1, List.append_assoc]⟩

theorem commandLayerSetKeyValues_written_mono (layerCode : Nat) (cs : List Int)
    (st : HidState) :
    ∃ tail, (commandLayerSetKeyValues layerCode cs st).2.written = st.written ++ tail :=
  setKeyValuesLoop_written_mono OpCodes.LayerSetKeyValues layerCode cs.length cs le_rfl 0 st

theorem commandLayerFnSetKeyValues_written_mono (layerCode : Nat) (cs : List Int)
    (st : HidState) :
    ∃ tail, (commandLayerFnSetKeyValues layerCode cs st).2.written = st.written ++ tail :=
  setKeyValuesLoop_written_mono OpCodes.LayerFnSetKeyValues layerCode cs.length cs le_rfl 0 st

theorem processLayer_written_mono (mk : List (String × Int)) (keys : List String)
    (name : String) (lkm : List (String × String)) (st : HidState) :
    ∃ tail, (processLayer mk keys name lkm st).2.written = st.written ++ tail := by
  unfold processLayer
  split
  · exact ⟨[], by simp⟩
  · split
    · exact ⟨[], by simp⟩
    · simp only []
      split
      · exact ⟨[], by simp⟩
      · rename_i info heq1
        split
        · split
          · rename_i e st1 heq2
            obtain ⟨t, ht⟩ := wipeoutLayer_written_mono info.code
              KeyboardLayerDataType.FnKeySet true st
            rw [heq2] at ht
            exact ⟨t, ht⟩
          · rename_i v st1 heq2
            obtain ⟨t1, ht1⟩ := wipeoutLayer_written_mono info.code
              KeyboardLayerDataType.FnKeySet true st
            rw [heq2] at ht1
            obtain ⟨t2, ht2⟩ := commandLayerFnSetKeyValues_written_mono info.code _ st1
            exact ⟨t1 ++ t2, by rw [ht2, ht1, List.append_assoc]⟩
        · split
          · rename_i e st1 heq2
            obtain ⟨t, ht⟩ := wipeoutLayer_written_mono info.code
              KeyboardLayerDataType.KeySet true st
            rw [heq2] at ht
            exact ⟨t, ht⟩
          · rename_i v st1 heq2
            obtain ⟨t1, ht1⟩ := wipeoutLayer_written_mono info.code
              KeyboardLayerDataType.KeySet true st
            rw [heq2] at ht1
            obtain ⟨t2, ht2⟩ := commandLayerSetKeyValues_written_mono info.code _ st1
            exact ⟨t1 ++ t2, by rw [ht2, ht1, List.append_assoc]⟩

theorem setAllLayers_written_mono (mk : List (String × Int)) (keys : List String) :
    ∀ (layers : List (String × List (String × String))) (st : HidState),
    ∃ tail, (setAllLayers mk keys layers st).2.written = st.written ++ tail := by
  intro layers
  induction layers with
  | nil =>
    intro st
    exact ⟨[], by simp [setAllLayers]⟩
  | cons p rest ih =>
    intro st
    obtain ⟨name, lkm⟩ := p
    simp only [setAllLayers]
    obtain ⟨t1, ht1⟩ := processLayer_written_mono mk keys name lkm st
    rcases hp : processLayer mk keys name lkm st with ⟨res, st1⟩
    rw [hp] at ht1
    cases res with
    | error e => exact ⟨t1, ht1⟩
    | ok u =>
      cases u
      obtain ⟨t2, ht2⟩ := ih st1
      exact ⟨t1 ++ t2, by rw [ht2, ht1, List.append_assoc]⟩

/-- C9: if the first k layers process successfully and layer k's key map
contains a source or destination key name absent from the key-code table,
`setAllLayers` raises a LookupError whose message names the offending key
and the layer, the state is exactly the state after the first k layers (so
no Reset-Layer-Data or Set-Key-Values frame is written for the failing
layer), and every frame written for the earlier layers is still present. -/
theorem setAllLayers_lookup_failure
    (mk : List (String × Int)) (keys : List String)
    (layers : List (String × List (String × String))) (st stk : HidState) (k : Nat)
    (layerName : String) (lkm : List (String × String))
    (hpre : setAllLayers mk keys (layers.take k) st = (.ok (), stk))
    (hklt : k < layers.length)
    (hk : layers.getD k ("", []) = (layerName, lkm))
    (hbad : ∃ pr ∈ lkm, (mk.lookup pr.1).isNone ∨ (mk.lookup pr.2).isNone) :
    ∃ msg, setAllLayers mk keys layers st = (.error (.lookupError msg), stk) ∧
      ((∃ pr ∈ lkm, mk.lookup pr.1 = none ∧ msg = srcWrongMsg pr.1 layerName) ∨
       (∃ pr ∈ lkm, mk.lookup pr.2 = none ∧ msg = dstWrongMsg pr.2 layerName)) ∧
      ∃ tail, stk.written = st.written ++ tail := by
  obtain ⟨msg, hval, hor⟩ := validateLayer_err mk layerName lkm hbad
  have hgetElem : layers[k] = (layerName, lkm) := by
    rw [← hk]
    exact (List.getD_eq_getElem layers ("", []) hklt).symm
  have hdrop : layers.drop k = (layerName, lkm) :: layers.drop (k + 1) := by
    rw [List.drop_eq_getElem_cons hklt, hgetElem]
  have hproc : processLayer mk keys layerName lkm stk = (.error (.lookupError msg), stk) := by
    unfold processLayer
    rw [hval]
  have hsplit := setAllLayers_append mk keys (layers.take k) (layers.drop k) st
  rw [List.take_append_drop] at hsplit
  refine ⟨msg, ?_, hor, ?_⟩
  · rw [hsplit, hpre]
    show setAllLayers mk keys (layers.drop k) stk = (.error (.lookupError msg), stk)
    rw [hdrop]
    simp only [setAllLayers]
    rw [hproc]
  · obtain ⟨t, ht⟩ := setAllLayers_written_mono mk keys (layers.take k) st
    rw [hpre] at ht
    exact ⟨t, ht⟩

/-- Witness for `setAllLayers_lookup_failure`: a single layer whose key
map sends "A" to the unknown destination "Bogus". -/
theorem setAllLayers_lookup_failure_witness :
    (setAllLayers [("UnusedKey", (0 : Int)), ("A", 4)] ["A"]
        (([("Layer1", [("A", "Bogus")])] :
          List (String × List (String × String))).take 0) ⟨[], []⟩ =
        (.ok (), (⟨[], []⟩ : HidState))) ∧
    0 < ([("Layer1", [("A", "Bogus")])] : List (String × List (String × String))).length ∧
    (∃ msg, setAllLayers [("UnusedKey", (0 : Int)), ("A", 4)] ["A"]
        [("Layer1", [("A", "Bogus")])] ⟨[], []⟩ =
          (.error (.lookupError msg), (⟨[], []⟩ : HidState)) ∧
      ((∃ pr ∈ [("A", "Bogus")],
          List.lookup pr.1 [("UnusedKey", (0 : Int)), ("A", 4)] = none ∧
          msg = srcWrongMsg pr.1 "Layer1") ∨
       (∃ pr ∈ [("A", "Bogus")],
          List.lookup pr.2 [("UnusedKey", (0 : Int)), ("A", 4)] = none ∧
          msg = dstWrongMsg pr.2 "Layer1")) ∧
      ∃ tail, (⟨[], []⟩ : HidState).written = (⟨[], []⟩ : HidState).written ++ tail) :=
  ⟨by rfl, by decide,
    setAllLayers_lookup_failure [("UnusedKey", (0 : Int)), ("A", 4)] ["A"]
      [("Layer1", [("A", "Bogus")])] ⟨[], []⟩ ⟨[], []⟩ 0 "Layer1" [("A", "Bogus")]
      (by rfl) (by decide) (by rfl)
      ⟨("A", "Bogus"), by simp, Or.inr (by decide)⟩⟩
